import Mathlib

/-!
Verification of the DNS zone-file manager (`zonefile.py`) against its
natural-language specification.

The embedding models Python strings as `List Char` (`PStr`).  Python text
methods (`split`, `strip`, `join`, `int(...)`, regular expressions) are
reimplemented with the exact semantics the source relies on; where a regular
expression appears in the source, the corresponding Lean function implements
its match semantics for arbitrary input lines (documented at each
definition).  Python exceptions that can escape a method are modelled with
`Except Crash`; the `InvalidLineException` that `_parse_lines` catches is a
distinct constructor carrying the mutated parser state, because the Python
object keeps attribute mutations performed before the raise.
-/

set_option maxRecDepth 40000

namespace ZoneFile

/-- Python `str` modelled as a list of characters. -/
abbrev PStr := List Char

/-- Coerce a Lean string literal to the `PStr` model. -/
def pstr (s : String) : PStr := s.data

/-- The uncaught Python exceptions the source can raise, by kind. -/
inductive Crash where
  | indexError
  | valueError
  | typeError
  | keyError
  | attrError
  | unboundLocal
  /-- marks the `while len(tokens) != 9` loop in `_Fillup`, which never
  terminates when a `@ SOA` line has more than 9 tokens -/
  | nonterm
deriving DecidableEq, Repr

/-- Characters Python `str.isspace()` accepts (ASCII range, which is all the
source ever feeds it). -/
def pyIsSpace (c : Char) : Bool :=
  c = ' ' ∨ c = '\t' ∨ c = '\n' ∨ c = '\r' ∨ c = Char.ofNat 11 ∨ c = Char.ofNat 12

def upperStr (s : PStr) : PStr := s.map Char.toUpper

/-- Python `s.split(sep)` for a one-character separator: keeps empty parts,
returns `[""]` on `""`. -/
def splitOnChar (sep : Char) : PStr → List PStr
  | [] => [[]]
  | c :: cs =>
    if c = sep then [] :: splitOnChar sep cs
    else
      match splitOnChar sep cs with
      | [] => [[c]]
      | p :: ps => (c :: p) :: ps

/-- Python `sep.join(parts)`. -/
def joinWith (sep : PStr) : List PStr → PStr
  | [] => []
  | [x] => x
  | x :: xs => x ++ sep ++ joinWith sep xs

/-- Python `s.split()` (split on whitespace runs, no empty parts). -/
def pySplitWs (s : PStr) : List PStr :=
  ((splitOnChar ' ' (s.map fun c => if pyIsSpace c then ' ' else c)).filter
    fun p => p.length ≠ 0)

/-- Python `s.strip()` (strip whitespace from both ends). -/
def stripAllWs (s : PStr) : PStr :=
  ((s.dropWhile pyIsSpace).reverse.dropWhile pyIsSpace).reverse

/-- Python `s.strip(c)` for a single strip character. -/
def stripChar (c : Char) (s : PStr) : PStr :=
  ((s.dropWhile (· = c)).reverse.dropWhile (· = c)).reverse

/-- Python `s.lstrip(c)` for a single strip character. -/
def lstripChar (c : Char) (s : PStr) : PStr := s.dropWhile (· = c)

/-- Python `s.rstrip(c)` for a single strip character. -/
def rstripChar (c : Char) (s : PStr) : PStr :=
  (s.reverse.dropWhile (· = c)).reverse

def startsWith (pre s : PStr) : Bool := pre.isPrefixOf s

def endsWith (suf s : PStr) : Bool := suf.reverse.isPrefixOf s.reverse

def isDigitChar (c : Char) : Bool := '0' ≤ c ∧ c ≤ '9'

def digitsToNat (ds : PStr) : Nat :=
  ds.foldl (fun acc c => acc * 10 + (c.toNat - '0'.toNat)) 0

/-- Python `int(s)` (base 10): optional surrounding whitespace, optional
sign, then one or more decimal digits.  (Digit-group underscores are not
modelled; no input in this development contains them.) -/
def pyInt (s : PStr) : Option Int :=
  let t := stripAllWs s
  let core : PStr → Option Int := fun ds =>
    if ds.length ≠ 0 ∧ ds.all isDigitChar then some (Int.ofNat (digitsToNat ds))
    else none
  match t with
  | '+' :: ds => core ds
  | '-' :: ds => (core ds).map (fun n => -n)
  | ds => core ds

/-- Python `str(n)` for an integer. -/
def intToPStr (n : Int) : PStr :=
  if n < 0 then '-' :: Nat.toDigits 10 n.natAbs else Nat.toDigits 10 n.toNat

/-- One parsed field value (Python str / int / None / list-of-str). -/
inductive Value where
  | vstr (s : PStr)
  | vint (n : Int)
  | vnone
  | vlist (l : List PStr)
deriving DecidableEq, Repr

/-- Python `str(value)`.  (`vlist` only ever reaches `str` after the TXT
quoting pass has replaced it by a string, so its rendering is the Python
`repr` shape, unreached in every theorem below.) -/
def valueStr : Value → PStr
  | .vstr s => s
  | .vint n => intToPStr n
  | .vnone => pstr "None"
  | .vlist l =>
    '[' :: joinWith (pstr ", ")
      (l.map fun s => Char.ofNat 39 :: s ++ [Char.ofNat 39]) ++ [']']

/-- An individual record: the ordered attribute dictionary built from the
argparse namespace (`record_dict` in the source). -/
abbrev RecD := List (PStr × Value)

/-- First-match association lookup (Python dict access on the unique keys
the source builds). -/
def recLookup (rd : RecD) (k : PStr) : Option Value :=
  match rd with
  | [] => none
  | (k2, v) :: rest => if k2 = k then some v else recLookup rest k

/-! ## ConvertTime (`class ConvertTime`, source lines 1655-1713) -/

/-- The trailing range check of `ConvertTime.convert`: values below 900 or
at/above `2^31` are reset to 86400 with the error flag set. -/
def ctFinish (n : Int) (err : Bool) : Int × Bool :=
  if n < 900 then (86400, true)
  else if n ≥ 2 ^ 31 then (86400, true)
  else (n, err)

/-- `ConvertTime.convert` before the trailing range check: `'0' +
txt.upper()` is parsed as an int; failing that, the last character is a
unit suffix and the remainder is parsed as an int — where that inner
`int(...)` is *unguarded* in the source and raises `ValueError` on garbage
such as `"XS"`. -/
def convertCore (txt : PStr) : Except Crash (Int × Bool) :=
  let tv := '0' :: upperStr txt
  match pyInt tv with
  | some n => .ok (n, false)
  | none =>
    let unit := tv.getLast (by simp [tv])
    let tv2 := tv.dropLast
    let needInt : PStr → Except Crash Int := fun s =>
      match pyInt s with
      | some n => .ok n
      | none => .error .valueError
    match unit with
    | 'S' => (needInt tv2).map fun n => (n, false)
    | 'M' => (needInt tv2).map fun n => (n * 60, false)
    | 'H' => (needInt tv2).map fun n => (n * 3600, false)
    | 'D' => (needInt tv2).map fun n => (n * 86400, false)
    | 'W' => (needInt tv2).map fun n => (n * 7 * 86400, false)
    | _ => .ok (86400, true)

/-- `ConvertTime.convert` as an integer: the unit resolution followed by
the trailing range check, exactly as the source sequences them. -/
def convertVal (txt : PStr) : Except Crash (Int × Bool) :=
  (convertCore txt).map fun p => ctFinish p.1 p.2

/-- `ConvertTime.convert`: returns the seconds value as a string plus the
error flag, or the escaping exception. -/
def convertTime (txt : PStr) : Except Crash (PStr × Bool) :=
  (convertVal txt).map fun p => (intToPStr p.1, p.2)

/-! ## Tokenizer (`_tokenize_line`, source lines 507-582) -/

/-- The character-consuming loop of `_tokenize_line`.  `esc`/`quo` are the
escape and quote modes, `buf` the current token buffer, `acc` the emitted
tokens.  A bare `;` flushes the buffer and stops the scan (comment). -/
def tokLoop : PStr → Bool → Bool → PStr → List PStr → List PStr
  | [], _, _, buf, acc =>
    -- post-loop: append the buffer when its space/newline-strip is nonempty
    if (stripChar '\n' (stripChar ' ' buf)).length ≠ 0 then acc ++ [buf] else acc
  | c :: cs, esc, quo, buf, acc =>
    if pyIsSpace c then
      if ¬quo ∧ ¬esc then
        tokLoop cs esc quo [] (if buf.length ≠ 0 then acc ++ [buf] else acc)
      else if quo then tokLoop cs esc quo (buf ++ [c]) acc
      else tokLoop cs false quo (buf ++ [c]) acc
    else if c = Char.ofNat 92 then tokLoop cs true quo buf acc
    else if c = '"' ∧ ¬esc then
      if quo then tokLoop cs esc false [] (acc ++ [buf])
      else tokLoop cs esc true buf acc
    else if c = ';' ∧ ¬esc ∧ ¬quo then acc ++ [buf]
    else tokLoop cs false quo (buf ++ [c]) acc

/-- `_tokenize_line`: raises `IndexError` on the empty line (the source
reads `linechars[0]` before the loop); a leading blank inserts the synthetic
`"_"` token. -/
def tokenizeLine (line : PStr) : Except Crash (List PStr) :=
  match line with
  | [] => .error .indexError
  | c :: _ =>
    let firstblank := c = ' ' ∨ c.toNat = 9
    let ret := tokLoop line false false [] []
    .ok (if firstblank then pstr "_" :: ret else ret)

/-- `_serialize` on one token: quote if it contains a space, quote again if
it contains a tab, then escape each `;` as backslash-semicolon. -/
def serializeTok (tok : PStr) : PStr :=
  let t1 := if tok.contains ' ' then '"' :: tok ++ ['"'] else tok
  let t2 := if t1.contains '\t' then '"' :: t1 ++ ['"'] else t1
  if t2.contains ';' then
    t2.flatMap fun c => if c = ';' then [Char.ofNat 92, ';'] else [c]
  else t2

/-- `_serialize`. -/
def serialize (toks : List PStr) : PStr :=
  joinWith [' '] (toks.map serializeTok)

/-! ## Normalizer passes -/

/-- `_ShakeoffComments` (source lines 146-159): tokenize and re-serialize
every non-blank line. -/
def shakeoffComments (text : PStr) : Except Crash PStr := do
  let lines := (splitOnChar '\n' text).filter fun l => (stripAllWs l).length ≠ 0
  let toks ← lines.mapM tokenizeLine
  .ok (joinWith ['\n'] (toks.map serialize))

/-- `_Levelout` token stream: per nonempty line, tabs to spaces, single
quotes to double quotes, space-split without empties, then an empty sentinel
token marking the end of the physical line. -/
def leveloutTokens (text : PStr) : List PStr :=
  ((splitOnChar '\n' text).filter fun l => l.length ≠ 0).flatMap fun l =>
    ((splitOnChar ' '
        (l.map fun c =>
          if c = '\t' then ' '
          else if c = Char.ofNat 39 then '"' else c)).filter
      fun x => x.length ≠ 0) ++ [[]]

/-- The `i > 0 ∧ captured[i] == "_"` placeholder restoration before a
captured group is joined. -/
def underscoreFix : List PStr → List PStr
  | [] => []
  | h :: t => h :: t.map fun x => if x = pstr "_" then [' '] else x

/-- The `while tokens` loop of `_Levelout`: parenthesis groups (possibly
spanning sentinels, i.e. physical lines) are captured into one logical
line.  A group left open at the end of input is dropped, as in the source
(the final `captured` is never flushed). -/
def levelLoop : List PStr → Bool → List PStr → List PStr → List PStr
  | [], _, _, acc => acc
  | tok :: rest, capturing, captured, acc =>
    if ¬capturing ∧ tok.length = 0 then
      if captured.length ≠ 0 then
        levelLoop rest capturing [] (acc ++ [joinWith [' '] (underscoreFix captured)])
      else levelLoop rest capturing captured acc
    else
      let (tok1, cap1) :=
        if startsWith (pstr "(") tok then (lstripChar '(' tok, true)
        else (tok, capturing)
      let (tok2, cap2) :=
        if cap1 ∧ endsWith (pstr ")") tok1 then (rstripChar ')' tok1, false)
        else (tok1, cap1)
      levelLoop rest cap2 (captured ++ [tok2]) acc

/-- `_Levelout` (source lines 162-215). -/
def levelout (text : PStr) : PStr :=
  joinWith ['\n'] (levelLoop (leveloutTokens text) false [] [])

/-- One non-overlapping, left-to-right `re.sub` step for the directive
patterns of `_CapitalLetterKeys`: `'$'` followed by `word` (letters matched
case-insensitively) followed by a space is rewritten to the uppercase
directive.  The fuel argument (initialized to the string length, which
every step strictly decreases below) only makes the recursion structural;
the zero case is unreachable from `capSub`. -/
def capSubGo (word : PStr) : Nat → PStr → PStr
  | 0, s => s
  | fuel + 1, s =>
    match s with
    | [] => []
    | c :: cs =>
      if c = '$' ∧ upperStr (cs.take word.length) = word ∧
          (cs.drop word.length).head? = some ' ' then
        '$' :: word ++ ' ' :: capSubGo word fuel (cs.drop (word.length + 1))
      else c :: capSubGo word fuel cs

def capSub (word s : PStr) : PStr := capSubGo word s.length s

/-- `_CapitalLetterKeys` (source lines 312-323). -/
def capitalLetterKeys (text : PStr) : PStr :=
  joinWith ['\n']
    ((splitOnChar '\n' text).map fun l => capSub (pstr "TTL") (capSub (pstr "ORIGIN") l))

/-! ## The two shared record-line regular expressions

`(.+?)( NS | MX | A | AAAA | HINFO | CNAME | TXT | SRV | URI | PTR )(.+)`
with `re.I` matches iff some position `p ≥ 1` carries one of the ten
space-delimited keywords (alternatives tried in pattern order, and the
leftmost such `p` wins because the leading group is lazy) with at least one
character after it.  Group 2 is reported already uppercased and stripped,
exactly what both call sites do with it. -/

/-- Case-insensitive literal prefix test. -/
def ciHas (lit s : PStr) : Bool := upperStr (s.take lit.length) = lit

def typeAlts : List (PStr × PStr) :=
  [(pstr " NS ", pstr "NS"), (pstr " MX ", pstr "MX"), (pstr " A ", pstr "A"),
   (pstr " AAAA ", pstr "AAAA"), (pstr " HINFO ", pstr "HINFO"),
   (pstr " CNAME ", pstr "CNAME"), (pstr " TXT ", pstr "TXT"),
   (pstr " SRV ", pstr "SRV"), (pstr " URI ", pstr "URI"),
   (pstr " PTR ", pstr "PTR")]

/-- Try the ten alternatives, in pattern order, at the head of `s`;
the trailing `(.+)` demands a nonempty remainder. -/
def findAltAt (s : PStr) : Option (PStr × PStr) :=
  typeAlts.findSome? fun alt =>
    if ciHas alt.1 s ∧ alt.1.length < s.length then some (alt.2, s.drop alt.1.length)
    else none

def ftsGo (front rest : PStr) : Option (PStr × PStr × PStr) :=
  match findAltAt rest with
  | some (name, suffix) => some (front, name, suffix)
  | none =>
    match rest with
    | [] => none
    | c :: cs => ftsGo (front ++ [c]) cs

/-- The record-type split regex: `(group 1, uppercased group 2, group 3)`. -/
def findTypeSplit (l : PStr) : Option (PStr × PStr × PStr) :=
  match l with
  | [] => none
  | c :: cs => ftsGo [c] cs

def hostClassChar (c : Char) : Bool :=
  ('a' ≤ c ∧ c ≤ 'z') ∨ ('A' ≤ c ∧ c ≤ 'Z') ∨ ('0' ≤ c ∧ c ≤ '9') ∨
    c = '-' ∨ c = '@' ∨ c = '_'

def isWsTab (c : Char) : Bool := c = ' ' ∨ c = '\t'

/-- Semantics of `re.match(r"([a-z0-9-@_]+?)*[ \t]+([0-9]*)", s, re.I)`.
The starred group repeats a *lazy* one-or-more, so each successful
repetition consumes exactly one class character and the group captures only
the **last** of them; the match succeeds iff the maximal leading run of
class characters (possibly empty) is followed by a space or tab.  Group 1
is the final character of that run (`None` when the run is empty), group 2
the digit run after the greedy whitespace run.  (Behaviour confirmed
against CPython `re`.) -/
def hostTtlMatch (s : PStr) : Option (Option PStr × PStr) :=
  let run := s.takeWhile hostClassChar
  let rest := s.drop run.length
  match rest with
  | c :: _ =>
    if isWsTab c then
      some (run.getLast?.map fun ch => [ch],
            (rest.dropWhile isWsTab).takeWhile isDigitChar)
    else none
  | [] => none

/-- The `for i in range(len(lp)): if lp[i] == 'IN': lp.pop(i)` loop: the
range is computed once, so after a pop the loop can index past the shrunken
list and raise `IndexError`.  The first argument is the number of remaining
iterations (`len(lp) - i`), making the loop structurally recursive. -/
def inStripGo : Nat → Nat → List PStr → Except Crash (List PStr)
  | 0, _, cur => .ok cur
  | fuel + 1, i, cur =>
    match cur.get? i with
    | none => .error .indexError
    | some t =>
      if t = pstr "IN" then inStripGo fuel (i + 1) (cur.eraseIdx i)
      else inStripGo fuel (i + 1) cur

def inStrip (lp : List PStr) : Except Crash (List PStr) :=
  inStripGo lp.length 0 lp

/-! ## `_AddLastHost` (source lines 326-392) -/

/-- One line of `_AddLastHost`: returns the new remembered owner and the
emitted line, if any.  The remembered owner is an `Option` because the
source can store Python `None` in `self.__lasthost` (when the owner/ttl
regex matches with an empty leading run); concatenating that `None` into an
output line is the modelled `TypeError`. -/
def addLastHostLine (lasthost : Option PStr) (line : PStr) :
    Except Crash (Option PStr × Option PStr) := do
  let lt ← tokenizeLine line
  if lt.length = 0 then .ok (lasthost, none)
  else if startsWith (pstr "$") line then .ok (lasthost, some line)
  else if startsWith (pstr "@ SOA") line then .ok (some (pstr "@"), some line)
  else
    let (partone, rtype, param) :=
      match findTypeSplit line with
      | some r => r
      | none => ([], [], [])
    let hostTtl ←
      if partone.length > 0 then do
        let lp ← inStrip (pySplitWs partone)
        let p2 := joinWith [' '] lp
        match hostTtlMatch p2 with
        | some g => pure g
        | none => pure (some p2, pstr "0")
      else
        pure ((some ([] : PStr), ([] : PStr)))
    let hostname : Option PStr := hostTtl.1
    let ttl : PStr := hostTtl.2
    let (hostname2, lasthost2) :=
      if hostname = some (pstr "_") then (lasthost, lasthost)
      else (hostname, hostname)
    if rtype.length ≠ 0 then
      match hostname2 with
      | none => .error .typeError
      | some h =>
        .ok (lasthost2, some (h ++ ' ' :: ttl ++ ' ' :: rtype ++ ' ' :: param))
    else .ok (lasthost2, none)

def addLastHostGo (lasthost : Option PStr) (acc : List PStr) :
    List PStr → Except Crash (List PStr × Option PStr)
  | [] => .ok (acc, lasthost)
  | l :: ls => do
    let r ← addLastHostLine lasthost l
    addLastHostGo r.1 (acc ++ r.2.toList) ls

/-- `_AddLastHost` over the whole buffer, threading `self.__lasthost`. -/
def addLastHost (text : PStr) (lasthost : Option PStr) :
    Except Crash (PStr × Option PStr) := do
  let r ← addLastHostGo lasthost [] (splitOnChar '\n' text)
  .ok (joinWith ['\n'] r.1, r.2)

/-! ## Record grammar (`_ckeck_records` / `_parse_line`, source lines 395-671)

The argparse machinery is modelled by its observable behaviour on the fixed
subparser set the source builds (confirmed against CPython argparse): the
first token selects the subparser; inside a subparser the positionals
`name`, optional `ttl`, the type marker, and the per-type fields are
allocated by count (the optional `ttl` consumes a token exactly when more
tokens than required positionals are present), `type=int` conversion
failures and missing required positionals raise the parser error that
`ZonefileLineParser.error` turns into `InvalidLineException`, and surplus
tokens are returned unmatched by `parse_known_args` (the source ignores
them).  Option-like tokens never arise from the normalizer except the
`--ttl` the source itself inserts for TXT, which is modelled explicitly. -/

def SUPPORTED : List PStr :=
  [pstr "$ORIGIN", pstr "$TTL", pstr "SOA", pstr "NS", pstr "A", pstr "AAAA",
   pstr "CNAME", pstr "MX", pstr "PTR", pstr "TXT", pstr "SRV", pstr "URI",
   pstr "HINFO"]

/-- The parsed-zone dictionary: one key per lowercase record type plus the
two directive scalars (`defaultdict(list)` in the source; a structure is
faithful because the key set is fixed). -/
structure ZoneDict where
  origin : Option Value := none
  ttl : Option Value := none
  soa : List RecD := []
  ns : List RecD := []
  a : List RecD := []
  aaaa : List RecD := []
  cname : List RecD := []
  mx : List RecD := []
  txt : List RecD := []
  ptr : List RecD := []
  srv : List RecD := []
  uri : List RecD := []
  hinfo : List RecD := []
deriving DecidableEq, Repr

/-- The mutable `ParseZoneFile` instance attributes the core pipeline reads
or writes (`__input`, `__lasthost`, `__current_origin`, the write-only
`_current_ttl`, `_text`, `_zonedict`). -/
structure PState where
  input : PStr
  lasthost : Option PStr
  origin : PStr
  currentTtl : PStr
  text : PStr
  zd : ZoneDict
deriving DecidableEq, Repr

/-- Python `xs[i]` with `IndexError`. -/
def hGet {α : Type} (l : List α) (i : Nat) : Except Crash α :=
  match l.get? i with
  | some x => .ok x
  | none => .error .indexError

/-- The per-type positional field tables of `_ckeck_records`
(`true` marks `type=int`). -/
def rrFields (t : PStr) : Option (List (PStr × Bool)) :=
  if t = pstr "SOA" then
    some [(pstr "mname", false), (pstr "rname", false), (pstr "serial", true),
          (pstr "refresh", true), (pstr "retry", true), (pstr "expire", true),
          (pstr "minimum", true)]
  else if t = pstr "NS" then some [(pstr "host", false)]
  else if t = pstr "A" then some [(pstr "ip", false)]
  else if t = pstr "AAAA" then some [(pstr "ip", false)]
  else if t = pstr "CNAME" then some [(pstr "alias", false)]
  else if t = pstr "MX" then some [(pstr "preference", false), (pstr "host", false)]
  else if t = pstr "PTR" then some [(pstr "host", false)]
  else if t = pstr "SRV" then
    some [(pstr "priority", true), (pstr "weight", true), (pstr "port", true),
          (pstr "target", false)]
  else if t = pstr "URI" then
    some [(pstr "priority", true), (pstr "weight", true), (pstr "target", false)]
  else if t = pstr "HINFO" then some [(pstr "cpu", false), (pstr "system", false)]
  else none

def assignFields : List (PStr × Bool) → List PStr → Except Unit RecD
  | [], _ => .ok []
  | (nm, isInt) :: fs, toks =>
    match toks with
    | [] => .error ()
    | v :: rest => do
      let val ←
        if isInt then
          match pyInt v with
          | some n => Except.ok (Value.vint n)
          | none => Except.error ()
        else Except.ok (Value.vstr v)
      let tl ← assignFields fs rest
      .ok ((nm, val) :: tl)

/-- One resource-record subparser: positionals `name`, `ttl?` (consumed
exactly when a surplus token exists), the type marker, then the fields. -/
def rrDispatch (ty : PStr) (fs : List (PStr × Bool)) (rest : List PStr) :
    Except Unit RecD :=
  let req := 2 + fs.length
  if rest.length < req then .error ()
  else
    match rest with
    | [] => .error ()
    | nameTok :: r1 => do
      let ta ←
        if rest.length ≥ req + 1 then
          match r1 with
          | [] => Except.error ()
          | tv :: rr =>
            match pyInt tv with
            | some n => Except.ok ((Value.vint n, rr) : Value × List PStr)
            | none => Except.error ()
        else Except.ok ((Value.vnone, r1) : Value × List PStr)
      match ta.2 with
      | [] => .error ()
      | tyTok :: r3 => do
        let flds ← assignFields fs r3
        .ok ((pstr "name", .vstr nameTok) :: (pstr "ttl", ta.1) ::
             (ty, .vstr tyTok) :: flds)

/-- Separate the `--ttl <int>` option (each occurrence consumes the next
token; the last occurrence wins) from the positional tokens of the TXT
subparser. -/
def txtSplit : List PStr → Except Unit (Option Int × List PStr)
  | [] => .ok (none, [])
  | t :: rest =>
    if t = pstr "--ttl" then
      match rest with
      | [] => .error ()
      | v :: rr => do
        let n ←
          match pyInt v with
          | some n => Except.ok n
          | none => Except.error ()
        let tail ← txtSplit rr
        .ok ((match tail.1 with | some m => some m | none => some n), tail.2)
    else do
      let tail ← txtSplit rest
      .ok (tail.1, t :: tail.2)

/-- The TXT subparser: positionals `name`, the marker, then one-or-more
text fields (`nargs='+'` consumes everything remaining). -/
def txtDispatch (rest : List PStr) : Except Unit RecD := do
  let s ← txtSplit rest
  match s.2 with
  | nameTok :: tyTok :: x :: xs =>
    .ok [(pstr "name", .vstr nameTok),
         (pstr "ttl", match s.1 with | some n => .vint n | none => .vnone),
         (pstr "TXT", .vstr tyTok),
         (pstr "txt", .vlist (x :: xs))]
  | _ => .error ()

/-- `myparser.parse_known_args(record_token)`: `.error` is the raised
`InvalidLineException`. -/
def argDispatch (tk : List PStr) : Except Unit RecD :=
  match tk with
  | [] => .ok []
  | t0 :: rest =>
    if t0 = pstr "$ORIGIN" then
      match rest with
      | [] => .error ()
      | v :: _ => .ok [(pstr "$ORIGIN", .vstr v)]
    else if t0 = pstr "$TTL" then
      match rest with
      | [] => .error ()
      | v :: _ =>
        match pyInt v with
        | some n => .ok [(pstr "$TTL", .vint n)]
        | none => .error ()
    else if t0 = pstr "TXT" then txtDispatch rest
    else
      match rrFields t0 with
      | some fs => rrDispatch t0 fs rest
      | none => .error ()

/-- The subparser-selection prepend of `_parse_line` (source lines 456-463),
including the `--ttl` insertion for TXT lines carrying a ttl. -/
def prependType (tk : List PStr) : List PStr :=
  match tk with
  | t0 :: t1 :: rest =>
    if SUPPORTED.contains t1 then t1 :: t0 :: t1 :: rest
    else
      match rest with
      | t2 :: rest2 =>
        if SUPPORTED.contains t2 then
          if t2 = pstr "TXT" then t2 :: t0 :: pstr "--ttl" :: t1 :: t2 :: rest2
          else t2 :: t0 :: t1 :: t2 :: rest2
        else tk
      | [] => tk
  | _ => tk

/-- The `$TTL` token conversion at the head of `_parse_line` (source lines
425-430): token 1 is always replaced by the conversion result, and
`self._current_ttl` (a distinct attribute from the constructor's
`__current_ttl`, thanks to a source typo; neither is ever read) is updated
only when no error was flagged. -/
def ttlFix (t0 currentTtl0 : PStr) (tk : List PStr) :
    Except Crash (List PStr × PStr) :=
  if upperStr t0 = pstr "$TTL" then do
    let t1 ← hGet tk 1
    let cv ← convertTime t1
    pure (tk.set 1 cv.1, if cv.2 then currentTtl0 else cv.1)
  else pure (tk, currentTtl0)

/-- The four `@ SOA` timer conversions (source lines 432-448). -/
def soaFix (t0 : PStr) (tk : List PStr) : Except Crash (List PStr) :=
  if t0 = pstr "@" then do
    let t1 ← hGet tk 1
    if upperStr t1 = pstr "SOA" then do
      let a5 ← hGet tk 5
      let c5 ← convertTime a5
      let u5 := tk.set 5 c5.1
      let a6 ← hGet u5 6
      let c6 ← convertTime a6
      let u6 := u5.set 6 c6.1
      let a7 ← hGet u6 7
      let c7 ← convertTime a7
      let u7 := u6.set 7 c7.1
      let a8 ← hGet u7 8
      let c8 ← convertTime a8
      pure (u7.set 8 c8.1)
    else pure tk
  else pure tk

/-- The `__current_origin` update (source lines 450-451). -/
def originFix (t0 origin0 : PStr) (tk : List PStr) : Except Crash PStr :=
  if upperStr t0 = pstr "$ORIGIN" then hGet tk 1
  else pure origin0

/-- Token fix-ups and attribute mutations of `_parse_line` before dispatch,
in source order.  Returns the rewritten tokens, the new `__current_origin`,
and the new `_current_ttl`. -/
def stage1 (origin0 currentTtl0 : PStr) (tk0 : List PStr) :
    Except Crash (List PStr × PStr × PStr) := do
  let t0 ← hGet tk0 0
  let s1 ← ttlFix t0 currentTtl0 tk0
  let tk2 ← soaFix t0 s1.1
  let origin1 ← originFix t0 origin0 tk2
  pure (tk2, origin1, s1.2)

/-- The origin-threading rule, as a pure function of the incoming token
line: an `$ORIGIN` line (first token, case-insensitively) replaces the
current origin by its second token, every other line keeps it — so folding
this over the preceding lines is exactly "the most recently seen `$ORIGIN`
value".  (An `$ORIGIN` line with no second token crashes `_parse_line`, so
its value here is irrelevant under any `.ok` hypothesis.) -/
def originUpdate (cur : PStr) (tk : List PStr) : PStr :=
  match tk with
  | t0 :: t1 :: _ => if upperStr t0 = pstr "$ORIGIN" then t1 else cur
  | _ => cur

/-- The TXT single-element collapse (source lines 474-475). -/
def txtCollapse (isTxt : Bool) (rd : RecD) : RecD :=
  if isTxt then
    rd.map fun kv =>
      if kv.1 = pstr "txt" then
        match kv.2 with
        | .vlist [x] => (kv.1, Value.vstr x)
        | v => (kv.1, v)
      else kv
  else rd

/-- Record-type detection (source lines 478-484): first key, in insertion
order, that is a supported type and either starts with `$` or whose value
equals the key; a value-matching key is deleted. -/
def detectType : RecD → Option PStr × RecD
  | [] => (none, [])
  | (k, v) :: rest =>
    if SUPPORTED.contains k ∧ (k.head? = some '$' ∨ v = .vstr k) then
      (some k, if v = .vstr k then rest else (k, v) :: rest)
    else
      let r := detectType rest
      (r.1, (k, v) :: r.2)

def zdAppend (zd : ZoneDict) (r : PStr) (rd : RecD) : ZoneDict :=
  if r = pstr "SOA" then {zd with soa := zd.soa ++ [rd]}
  else if r = pstr "NS" then {zd with ns := zd.ns ++ [rd]}
  else if r = pstr "A" then {zd with a := zd.a ++ [rd]}
  else if r = pstr "AAAA" then {zd with aaaa := zd.aaaa ++ [rd]}
  else if r = pstr "CNAME" then {zd with cname := zd.cname ++ [rd]}
  else if r = pstr "MX" then {zd with mx := zd.mx ++ [rd]}
  else if r = pstr "TXT" then {zd with txt := zd.txt ++ [rd]}
  else if r = pstr "PTR" then {zd with ptr := zd.ptr ++ [rd]}
  else if r = pstr "SRV" then {zd with srv := zd.srv ++ [rd]}
  else if r = pstr "URI" then {zd with uri := zd.uri ++ [rd]}
  else if r = pstr "HINFO" then {zd with hinfo := zd.hinfo ++ [rd]}
  else zd

/-- The PTR `fullname` fix-up (source lines 491-493): appends
`fullname = name + '.' + current_origin` built from the record's owner
`name`; a missing `name` key is `KeyError`, a non-string one the
concatenation `TypeError`. -/
def ptrFixup (origin : PStr) (rt : Option PStr) (rd0 : RecD) :
    Except Crash RecD :=
  if rt = some (pstr "PTR") then
    match recLookup rd0 (pstr "name") with
    | some (.vstr nm) =>
      .ok (rd0 ++ [(pstr "fullname", Value.vstr (nm ++ '.' :: origin))])
    | some _ => .error .typeError
    | none => .error .keyError
  else .ok rd0

/-- The PTR fix-up followed by the insertion into the dictionary
(source lines 486-504). -/
def insertRecord (zd : ZoneDict) (origin : PStr) (rt : Option PStr)
    (rd0 : RecD) : Except Crash ZoneDict :=
  ptrFixup origin rt rd0 >>= fun rd =>
    if rd.length = 0 then pure zd
    else
      match rt with
      | none => .error .attrError
      | some r =>
        if r.head? = some '$' then
          match recLookup rd r with
          | none => .error .keyError
          | some v =>
            if r = pstr "$ORIGIN" then pure {zd with origin := some v}
            else if r = pstr "$TTL" then pure {zd with ttl := some v}
            else pure zd
        else pure (zdAppend zd r rd)

/-- Outcome of one `_parse_line` call: `done` is normal return, `invalid`
is the raised `InvalidLineException`, carrying the state because the
attribute mutations performed before the raise persist on the instance. -/
inductive LineRes where
  | done (st : PState)
  | invalid (st : PState)
deriving DecidableEq, Repr

/-- The record-dictionary munging after dispatch (source lines 473-489):
the TXT collapse, record-type detection and `None`-field cleaning. -/
def dispatchRecord (tk4 : List PStr) (rd0 : RecD) : Option PStr × RecD :=
  let d := detectType (txtCollapse (tk4.head? = some (pstr "TXT")) rd0)
  (d.1, d.2.filter fun kv => kv.2 ≠ Value.vnone)

/-- `_parse_line` (source lines 416-504). -/
def parseLineStep (st : PState) (tk0 : List PStr) : Except Crash LineRes := do
  let s1 ← stage1 st.origin st.currentTtl tk0
  match argDispatch (prependType s1.1) with
  | .error _ => pure (.invalid {st with origin := s1.2.1, currentTtl := s1.2.2})
  | .ok rd0 => do
    let zd2 ← insertRecord st.zd s1.2.1
      (dispatchRecord (prependType s1.1) rd0).1
      (dispatchRecord (prependType s1.1) rd0).2
    pure (.done {st with origin := s1.2.1, currentTtl := s1.2.2, zd := zd2})

/-- `_parse_lines` (source lines 395-413): per line, tokenize and parse;
`InvalidLineException` is caught (the line is skipped, mutations kept). -/
def parseLinesGo (st : PState) : List PStr → Except Crash PState
  | [] => .ok st
  | l :: ls => do
    let tk ← tokenizeLine l
    match ← parseLineStep st tk with
    | .done st2 => parseLinesGo st2 ls
    | .invalid st2 => parseLinesGo st2 ls

def parseLinesPass (st : PState) : Except Crash PState :=
  parseLinesGo {st with zd := {}} (splitOnChar '\n' st.text)

/-! ## The constructor pipeline (`ParseZoneFile.__init__`) -/

def initState (text : PStr) : PState :=
  { input := text, lasthost := some [], origin := [], currentTtl := [],
    text := text, zd := {} }

def shakePass (st : PState) : Except Crash PState := do
  let t ← shakeoffComments st.text
  pure {st with text := t}

def levelPass (st : PState) : PState := {st with text := levelout st.text}

def capPass (st : PState) : PState := {st with text := capitalLetterKeys st.text}

def addLastHostPass (st : PState) : Except Crash PState := do
  let r ← addLastHost st.text st.lasthost
  pure {st with text := r.1, lasthost := r.2}

/-- `ParseZoneFile(text)`: the full constructor pipeline.  A `.error`
models an exception escaping the constructor. -/
def mkParseZoneFile (text : PStr) : Except Crash PState := do
  let s1 ← shakePass (initState text)
  let s4 ← addLastHostPass (capPass (levelPass s1))
  parseLinesPass s4

/-- `ParseZoneFile.showinput` (source lines 62-63). -/
def showinput (st : PState) : PStr := st.input

/-! ## Field validity checkers (source lines 1200-1282) -/

/-- The per-label regex `(?!-)[a-z0-9-]{1,63}(?<!-)$` with `re.I`: between
1 and 63 characters, all alphanumeric-or-hyphen, neither starting nor
ending with a hyphen. -/
def labelAllowed (l : PStr) : Bool :=
  1 ≤ l.length ∧ l.length ≤ 63 ∧
    l.all (fun c => ('a' ≤ c ∧ c ≤ 'z') ∨ ('A' ≤ c ∧ c ≤ 'Z') ∨
      ('0' ≤ c ∧ c ≤ '9') ∨ c = '-') ∧
    l.head? ≠ some '-' ∧ l.getLast? ≠ some '-'

/-- `__check_hostname`: `hostname[-1]` raises `IndexError` on the empty
string.  The source assigns `ret = False` when the name is longer than 253
characters and when the TLD is all digits, but both assignments are dead:
the final `if all(...)/else` unconditionally reassigns `ret`, so the
returned value is exactly the per-label check. -/
def checkHostname (h : PStr) : Except Crash Bool :=
  match h.getLast? with
  | none => .error .indexError
  | some last =>
    let hostname := if last = '.' then h.dropLast else h
    .ok ((splitOnChar '.' hostname).all labelAllowed)

/-- `__check_number`: range `[0, 2^31]` (upper bound inclusive in the
source).  When `int(token)` succeeds but the value is out of range, no
branch assigns `ret` and the `return ret` outside the `try` raises
`UnboundLocalError`. -/
def checkNumber (tok : PStr) : Except Crash Bool :=
  match pyInt tok with
  | none => .ok false
  | some v =>
    if 0 ≤ v ∧ v ≤ 2 ^ 31 then .ok true
    else .error .unboundLocal

/-- `__check_ipv4`: exactly three dots, every dot-separated part an integer
in `0..255`. -/
def checkIpv4 (s : PStr) : Bool :=
  if (s.count '.') ≠ 3 then false
  else
    (splitOnChar '.' s).all fun p =>
      match pyInt p with
      | some n => 0 ≤ n ∧ n ≤ 255
      | none => false

/-- Modelled from the spec: `__check_ipv6` delegates to the external
`ipaddress` standard-library capability, which the spec (§1) places out of
scope and assumes correct.  No theorem below depends on its value (no input
in this development contains an AAAA record). -/
def checkIpv6 (_ : PStr) : Bool := true

/-! ## `_Fillup` (source lines 218-309) -/

/-- Tail of the generic `_Fillup` branch: strip `IN` tokens from the
owner/ttl prefix, run the owner/ttl regex, and emit the canonical
`owner ttl IN TYPE parameters` line.  A `None` group-1 capture would be
concatenated into the line (`TypeError`). -/
def fillupTail (partone0 rt param : PStr) (errs : List PStr) :
    Except Crash (Option PStr × List PStr) := do
  let lp ← inStrip (pySplitWs partone0)
  let p2 := joinWith [' '] lp
  let hn ←
    match hostTtlMatch p2 with
    | some (some h, t) => pure ((h, t) : PStr × PStr)
    | some (none, _) => .error .typeError
    | none => pure ((p2, pstr "0") : PStr × PStr)
  pure (some (hn.1 ++ ' ' :: hn.2 ++ pstr " IN " ++ rt ++ ' ' :: param), errs)

/-- One line of `_Fillup`. -/
def fillupLine (line : PStr) (errs : List PStr) :
    Except Crash (Option PStr × List PStr) := do
  if (stripAllWs line).length = 0 then pure (none, errs)
  else if startsWith (pstr "$ORIGIN") (upperStr line) then pure (some line, errs)
  else if startsWith (pstr "$TTL") (upperStr line) then do
    let tks ← tokenizeLine line
    if tks.length > 1 then do
      let cv ← convertTime (tks.getD 1 [])
      if ¬cv.2 then pure (some (pstr "$TTL " ++ cv.1), errs)
      else pure (some line, errs)
    else pure (some line, errs)
  else if startsWith (pstr "@ SOA") (upperStr line) then do
    let tks0 ← tokenizeLine line
    -- `while len(tokens) != 9: tokens.append('missing')` never terminates
    -- when more than 9 tokens are present
    if tks0.length > 9 then .error .nonterm
    else do
      let tks := tks0 ++ List.replicate (9 - tks0.length) (pstr "missing")
      let base := joinWith [' '] (tks.take 5) ++ [' ']
      let c5 ← convertTime (tks.getD 5 [])
      let c6 ← convertTime (tks.getD 6 [])
      let c7 ← convertTime (tks.getD 7 [])
      let c8 ← convertTime (tks.getD 8 [])
      -- a timer whose conversion errors is dropped from the rebuilt line
      let out := base ++
        (if ¬c5.2 then c5.1 ++ [' '] else []) ++
        (if ¬c6.2 then c6.1 ++ [' '] else []) ++
        (if ¬c7.2 then c7.1 ++ [' '] else []) ++
        (if ¬c8.2 then c8.1 ++ [' '] else [])
      pure (some out, errs)
  else
    match findTypeSplit line with
    | some r => fillupTail r.1 r.2.1 r.2.2 errs
    | none =>
      fillupTail (pstr "### ") [] line
        (errs ++ [pstr "invalid record type! " ++ line])

def fillupGo (errs : List PStr) (acc : List PStr) :
    List PStr → Except Crash (List PStr × List PStr)
  | [] => .ok (acc, errs)
  | l :: ls => do
    let r ← fillupLine l errs
    fillupGo r.2 (acc ++ r.1.toList) ls

/-- `_Fillup`: canonical text plus the diagnostics it appends to
`self.__ruleerror`. -/
def fillup (text : PStr) (errs : List PStr) :
    Except Crash (PStr × List PStr) := do
  let r ← fillupGo errs [] (splitOnChar '\n' text)
  .ok (joinWith ['\n'] r.1, r.2)

/-! ## The 18 validator rules (`_CheckRule_01` .. `_CheckRule_18`)

The validator regexes all begin with a lazy `.+?` (or a `[@_]` head plus
`.*`), so matching reduces to: some suffix of the line, starting at
position at least one, satisfies the rest of the pattern.  `suffixAny`
tests every suffix (the lazy prefix makes leftmost-first equivalent to
existence for the boolean rules); `suffixFirst` returns the leftmost
capture where a rule extracts a group. -/

def suffixAny (f : PStr → Bool) : PStr → Bool
  | [] => f []
  | s@(_ :: rest) => f s ∨ suffixAny f rest

def suffixFirst (f : PStr → Option PStr) : PStr → Option PStr
  | [] => f []
  | s@(_ :: rest) =>
    match f s with
    | some g => some g
    | none => suffixFirst f rest

/-- `.+?` followed by `f`: a suffix at position >= 1 satisfies `f`. -/
def anyTail (f : PStr → Bool) (l : PStr) : Bool :=
  match l with
  | [] => false
  | _ :: rest => suffixAny f rest

/-- `.+?[ \t]IN <kw>.+` (rules 9-12 and 14-18): one whitespace, the literal
`IN <kw>` case-insensitively, then at least one character. -/
def ruleHeadPat (kw : PStr) (l : PStr) : Bool :=
  anyTail
    (fun s =>
      match s with
      | c :: r => isWsTab c ∧ ciHas kw r ∧ kw.length < r.length
      | [] => false)
    l

/-- `_CheckRule_01`: `$ORIGIN` present exactly once with a valid domain
value (the scan breaks at the first invalid one). -/
def rule01go (counter : Nat) (errs : List PStr) :
    List PStr → Except Crash (Nat × List PStr)
  | [] => .ok (counter, errs)
  | l :: ls =>
    if l.length = 0 then rule01go counter errs ls
    else if startsWith (pstr "$ORIGIN") (upperStr l) then do
      let words := splitOnChar ' ' l
      if words.length = 2 then do
        let h ← checkHostname (words.getD 1 [])
        if h then rule01go (counter + 1) errs ls
        else .ok (counter + 1, errs ++ [pstr "$origin domain name not valid."])
      else .ok (counter + 1, errs ++ [pstr "$origin domain name not valid."])
    else rule01go counter errs ls

def checkRule01 (lines : List PStr) (errs : List PStr) :
    Except Crash (List PStr) := do
  let r ← rule01go 0 errs lines
  pure (if r.1 ≠ 1 then r.2 ++ [pstr "$origin should be present exactly once."]
        else r.2)

/-- `_CheckRule_02`: `$TTL` present exactly once and in range. -/
def rule02go (counter : Nat) (errs : List PStr) :
    List PStr → Except Crash (Nat × List PStr)
  | [] => .ok (counter, errs)
  | l :: ls =>
    if startsWith (pstr "$TTL") (upperStr l) then do
      let words := splitOnChar ' ' l
      if words.length = 2 then do
        let cv ← convertTime (words.getD 1 [])
        if cv.2 then
          rule02go (counter + 1) (errs ++ [pstr "$ttl value not valid."]) ls
        else do
          let n ← checkNumber cv.1
          if n then rule02go (counter + 1) errs ls
          else rule02go (counter + 1) (errs ++ [pstr "$ttl value not valid."]) ls
      else rule02go (counter + 1) (errs ++ [pstr "$ttl not valid."]) ls
    else rule02go counter errs ls

def checkRule02 (lines : List PStr) (errs : List PStr) :
    Except Crash (List PStr) := do
  let r ← rule02go 0 errs lines
  pure (if r.1 ≠ 1 then r.2 ++ [pstr "$ttl should be present exactly once."]
        else r.2)

/-- `_CheckRule_03`: exactly one line starting `@ SOA`. -/
def checkRule03 (lines : List PStr) (errs : List PStr) : List PStr :=
  let counter := (lines.filter fun l =>
    l.length ≠ 0 ∧ startsWith (pstr "@ SOA") (upperStr l)).length
  if counter ≠ 1 then errs ++ [pstr "@ SOA must be present exactly once."]
  else errs

/-- `.+?[ \t](IN NS)[ \t].*` of `_CheckRule_04`. -/
def rule04pat (l : PStr) : Bool :=
  anyTail
    (fun s =>
      match s with
      | c :: r =>
        isWsTab c ∧ ciHas (pstr "IN NS") r ∧ (r.drop 5).head?.any isWsTab
      | [] => false)
    l

def checkRule04 (lines : List PStr) (errs : List PStr) : List PStr :=
  let counter := (lines.filter fun l => l.length ≠ 0 ∧ rule04pat l).length
  if counter < 1 then errs ++ [pstr "@ NS must be present once."] else errs

/-- `.+?[ \t]([0-9]+)[ \t]+IN.+` of `_CheckRule_05`, returning the leftmost
digit group: a whitespace at position >= 1, a maximal digit run (only the
maximal run can be followed by whitespace), a whitespace run, `IN`
case-insensitively, then at least one character. -/
def rule05try (s : PStr) : Option PStr :=
  match s with
  | c :: r =>
    if isWsTab c then
      let ds := r.takeWhile isDigitChar
      if ds.length ≠ 0 then
        let r2 := r.drop ds.length
        let ws2 := r2.takeWhile isWsTab
        let r3 := r2.drop ws2.length
        if ws2.length ≠ 0 ∧ ciHas (pstr "IN") r3 ∧ 2 < r3.length then some ds
        else none
      else none
    else none
  | [] => none

def rule05group (l : PStr) : Option PStr :=
  match l with
  | [] => none
  | _ :: rest => suffixFirst rule05try rest

def checkRule05 (lines : List PStr) (errs : List PStr) :
    Except Crash (List PStr) :=
  match lines with
  | [] => .ok errs
  | l :: ls => do
    let errs2 ←
      if l.length = 0 then pure errs
      else
        match rule05group l with
        | some ds => do
          let n ← checkNumber ds
          pure (if ¬n then errs ++ [pstr "ttl not valid! " ++ l] else errs)
        | none => pure errs
    checkRule05 ls errs2

/-- `(@ SOA ).+` of `_CheckRule_06`. -/
def rule06soaStart (l : PStr) : Bool :=
  ciHas (pstr "@ SOA ") l ∧ 6 < l.length

/-- `[@_](.*) IN [MX|TXT|A|AAAA|HINFO|PTR|SRV|URI] .*` of `_CheckRule_06`:
the bracket expression is a character class, so after ` IN ` exactly one
class character followed by a space is required. -/
def rule06classChar (c : Char) : Bool :=
  [(Char.toUpper c)].all fun u =>
    ['M', 'X', '|', 'T', 'A', 'H', 'I', 'N', 'F', 'O', 'P', 'R', 'S', 'U',
     'V'].contains u

def rule06mid (l : PStr) : Bool :=
  match l with
  | c :: rest =>
    (c = '@' ∨ c = '_') ∧
      suffixAny
        (fun s =>
          ciHas (pstr " IN ") s ∧ (s.drop 4).head?.any rule06classChar ∧
            (s.drop 5).head?.any (· = ' '))
        rest
  | [] => false

/-- `[@_](.*?) IN NS .+` of `_CheckRule_06`. -/
def rule06ns (l : PStr) : Bool :=
  match l with
  | c :: rest =>
    (c = '@' ∨ c = '_') ∧
      suffixAny (fun s => ciHas (pstr " IN NS ") s ∧ 7 < s.length) rest
  | [] => false

def rule06go : List PStr → Nat → Nat → Nat
  | [], _, cnt => cnt
  | l :: ls, status, cnt =>
    if status = 0 then
      if rule06soaStart l then rule06go ls 1 cnt else rule06go ls 0 cnt
    else
      let status2 := if status = 1 ∧ ¬rule06mid l then 2 else status
      let cnt2 := if status2 = 2 ∧ rule06ns l then cnt + 1 else cnt
      rule06go ls status2 cnt2

def checkRule06 (lines : List PStr) (errs : List PStr) : List PStr :=
  if rule06go lines 0 0 < 1 then
    errs ++ [pstr "there is no valid NS record after SOA!"]
  else errs

/-- `.+?[ \t]IN CNAME.+` (rules 7 and 11). -/
def ruleCnamePat (l : PStr) : Bool := ruleHeadPat (pstr "IN CNAME") l

/-- `_CheckRule_07`: a CNAME line must not be followed by a line whose
owner is the `_` continuation placeholder (the `(_).+` check fires on the
same iteration that sets the status). -/
def rule07go (errs : List PStr) (status : Nat) : List PStr → List PStr
  | [] => errs
  | l :: ls =>
    let status1 := if status = 0 ∧ ruleCnamePat l then 1 else status
    if status1 = 1 then
      let errs2 :=
        if l.head? = some '_' ∧ 2 ≤ l.length then
          errs ++ [pstr "cname follower without a hostname! " ++ l]
        else errs
      rule07go errs2 0 ls
    else rule07go errs status1 ls

def checkRule07 (lines : List PStr) (errs : List PStr) : List PStr :=
  rule07go errs 0 lines

/-- `(@ SOA)[ \t]+.+` of `_CheckRule_08`. -/
def rule08head (l : PStr) : Bool :=
  ciHas (pstr "@ SOA") l ∧ (l.drop 5).head?.any isWsTab ∧
    ((l.drop 5).dropWhile isWsTab).length ≠ 0

/-- The `for`-loop of `_CheckRule_08` leaks its variable: the checked line
is the first match, or the **last line of the text** when nothing
matches. -/
def rule08pick (lines : List PStr) : PStr :=
  match lines.find? rule08head with
  | some l => l
  | none => lines.getLastD []

def checkRule08 (lines : List PStr) (errs : List PStr) :
    Except Crash (List PStr) := do
  let line := rule08pick lines
  let lt ← tokenizeLine line
  if lt.length ≠ 9 then pure (errs ++ [pstr "wrong SOA record! " ++ line])
  else do
    let errs := errs ++
      (if lt.getD 0 [] ≠ pstr "@" then [pstr "wrong SOA record! " ++ line] else [])
    let errs := errs ++
      (if lt.getD 1 [] ≠ pstr "SOA" then [pstr "wrong SOA record! " ++ line] else [])
    let h2 ← checkHostname (lt.getD 2 [])
    let errs := errs ++
      (if ¬h2 then [pstr "wrong master name in SOA record! " ++ line] else [])
    let h3 ← checkHostname (lt.getD 3 [])
    let errs := errs ++
      (if ¬h3 then [pstr "wrong responsible name in SOA record! " ++ line] else [])
    let n4 ← checkNumber (lt.getD 4 [])
    let errs := errs ++
      (if ¬n4 then [pstr "wrong serial in SOA record! " ++ line] else [])
    let t5 ← convertTime (lt.getD 5 [])
    let n5 ← checkNumber t5.1
    let errs := errs ++
      (if ¬n5 then [pstr "wrong time value in SOA record! " ++ line] else [])
    let t6 ← convertTime (lt.getD 6 [])
    let n6 ← checkNumber t6.1
    let errs := errs ++
      (if ¬n6 then [pstr "wrong time value in SOA record! " ++ line] else [])
    let t7 ← convertTime (lt.getD 7 [])
    let n7 ← checkNumber t7.1
    let errs := errs ++
      (if ¬n7 then [pstr "wrong time value in SOA record! " ++ line] else [])
    let t8 ← convertTime (lt.getD 8 [])
    let n8 ← checkNumber t8.1
    let errs := errs ++
      (if ¬n8 then [pstr "wrong time value in SOA record! " ++ line] else [])
    pure errs

/-- The shared scan shape of rules 9-18: on each line matching the rule's
pattern, run the rule body on that same line. -/
def ruleScanGo (pat : PStr → Bool)
    (body : PStr → List PStr → Except Crash (List PStr)) :
    List PStr → List PStr → Except Crash (List PStr)
  | [], errs => .ok errs
  | l :: ls, errs => do
    if pat l then do
      let errs2 ← body l errs
      ruleScanGo pat body ls errs2
    else ruleScanGo pat body ls errs

/-- The `linetokens[0].startswith('@') or linetokens[0].startswith('_')`
owner exemption shared by rules 9, 10 and 12-18. -/
def ownerCheck (lt : List PStr) (tag l : PStr) (errs : List PStr) :
    Except Crash (List PStr) := do
  let t0 ← hGet lt 0
  if t0.head? = some '@' ∨ t0.head? = some '_' then pure errs
  else do
    let h ← checkHostname t0
    pure (errs ++ (if ¬h then [tag ++ l] else []))

def rule09body (l : PStr) (errs : List PStr) : Except Crash (List PStr) := do
  let lt ← tokenizeLine l
  let tag := pstr "wrong NS record! "
  let errs := errs ++ (if lt.length ≠ 5 then [tag ++ l] else [])
  let errs ← ownerCheck lt tag l errs
  let t1 ← hGet lt 1
  let n1 ← checkNumber t1
  let errs := errs ++ (if ¬n1 then [tag ++ l] else [])
  let t4 ← hGet lt 4
  let h4 ← checkHostname t4
  pure (errs ++ (if ¬h4 then [tag ++ l] else []))

def checkRule09 (lines : List PStr) (errs : List PStr) :
    Except Crash (List PStr) :=
  ruleScanGo (ruleHeadPat (pstr "IN NS")) rule09body lines errs

def rule10body (l : PStr) (errs : List PStr) : Except Crash (List PStr) := do
  let lt ← tokenizeLine l
  let tag := pstr "wrong MX record! "
  let errs := errs ++ (if lt.length ≠ 6 then [tag ++ l] else [])
  let errs ← ownerCheck lt tag l errs
  let t1 ← hGet lt 1
  let n1 ← checkNumber t1
  let errs := errs ++ (if ¬n1 then [tag ++ l] else [])
  let t4 ← hGet lt 4
  let n4 ← checkNumber t4
  let errs := errs ++ (if ¬n4 then [tag ++ l] else [])
  let t5 ← hGet lt 5
  let h5 ← checkHostname t5
  pure (errs ++ (if ¬h5 then [tag ++ l] else []))

def checkRule10 (lines : List PStr) (errs : List PStr) :
    Except Crash (List PStr) :=
  ruleScanGo (ruleHeadPat (pstr "IN MX")) rule10body lines errs

/-- Rule 11 checks the owner with `__check_hostname` directly (no `@`/`_`
exemption, unlike the other record rules). -/
def rule11body (l : PStr) (errs : List PStr) : Except Crash (List PStr) := do
  let lt ← tokenizeLine l
  let tag := pstr "wrong CNAME record! "
  let errs := errs ++ (if lt.length ≠ 5 then [tag ++ l] else [])
  let t0 ← hGet lt 0
  let h0 ← checkHostname t0
  let errs := errs ++ (if ¬h0 then [tag ++ l] else [])
  let t1 ← hGet lt 1
  let n1 ← checkNumber t1
  let errs := errs ++ (if ¬n1 then [tag ++ l] else [])
  let t4 ← hGet lt 4
  let h4 ← checkHostname t4
  pure (errs ++ (if ¬h4 then [tag ++ l] else []))

def checkRule11 (lines : List PStr) (errs : List PStr) :
    Except Crash (List PStr) :=
  ruleScanGo ruleCnamePat rule11body lines errs

def rule12body (l : PStr) (errs : List PStr) : Except Crash (List PStr) := do
  let lt ← tokenizeLine l
  let tag := pstr "wrong HINFO record! "
  let errs := errs ++ (if lt.length ≠ 6 then [tag ++ l] else [])
  let errs ← ownerCheck lt tag l errs
  let t1 ← hGet lt 1
  let n1 ← checkNumber t1
  pure (errs ++ (if ¬n1 then [tag ++ l] else []))

def checkRule12 (lines : List PStr) (errs : List PStr) :
    Except Crash (List PStr) :=
  ruleScanGo (ruleHeadPat (pstr "IN HINFO")) rule12body lines errs

/-- `.+?( IN A ).+` of `_CheckRule_13`. -/
def rule13pat (l : PStr) : Bool :=
  anyTail (fun s => ciHas (pstr " IN A ") s ∧ 6 < s.length) l

def rule13body (l : PStr) (errs : List PStr) : Except Crash (List PStr) := do
  let lt ← tokenizeLine l
  let tag := pstr "wrong A record! "
  let errs := errs ++ (if lt.length ≠ 5 then [tag ++ l] else [])
  let errs ← ownerCheck lt tag l errs
  let t1 ← hGet lt 1
  let n1 ← checkNumber t1
  let errs := errs ++ (if ¬n1 then [tag ++ l] else [])
  let t4 ← hGet lt 4
  pure (errs ++ (if ¬checkIpv4 t4 then [tag ++ l] else []))

def checkRule13 (lines : List PStr) (errs : List PStr) :
    Except Crash (List PStr) :=
  ruleScanGo rule13pat rule13body lines errs

def rule14body (l : PStr) (errs : List PStr) : Except Crash (List PStr) := do
  let lt ← tokenizeLine l
  let tag := pstr "wrong AAAA record! "
  let errs := errs ++ (if lt.length ≠ 5 then [tag ++ l] else [])
  let errs ← ownerCheck lt tag l errs
  let t1 ← hGet lt 1
  let n1 ← checkNumber t1
  let errs := errs ++ (if ¬n1 then [tag ++ l] else [])
  let t4 ← hGet lt 4
  pure (errs ++ (if ¬checkIpv6 t4 then [tag ++ l] else []))

def checkRule14 (lines : List PStr) (errs : List PStr) :
    Except Crash (List PStr) :=
  ruleScanGo (ruleHeadPat (pstr "IN AAAA")) rule14body lines errs

def rule15body (l : PStr) (errs : List PStr) : Except Crash (List PStr) := do
  let lt ← tokenizeLine l
  let tag := pstr "wrong PTR record! "
  let errs := errs ++ (if lt.length ≠ 5 then [tag ++ l] else [])
  let errs ← ownerCheck lt tag l errs
  let t1 ← hGet lt 1
  let n1 ← checkNumber t1
  let errs := errs ++ (if ¬n1 then [tag ++ l] else [])
  let t4 ← hGet lt 4
  let h4 ← checkHostname t4
  pure (errs ++ (if ¬h4 then [tag ++ l] else []))

def checkRule15 (lines : List PStr) (errs : List PStr) :
    Except Crash (List PStr) :=
  ruleScanGo (ruleHeadPat (pstr "IN PTR")) rule15body lines errs

def rule16body (l : PStr) (errs : List PStr) : Except Crash (List PStr) := do
  let lt ← tokenizeLine l
  let tag := pstr "wrong TXT record! "
  let errs := errs ++ (if lt.length ≠ 5 then [tag ++ l] else [])
  let errs ← ownerCheck lt tag l errs
  let t1 ← hGet lt 1
  let n1 ← checkNumber t1
  pure (errs ++ (if ¬n1 then [tag ++ l] else []))

def checkRule16 (lines : List PStr) (errs : List PStr) :
    Except Crash (List PStr) :=
  ruleScanGo (ruleHeadPat (pstr "IN TXT")) rule16body lines errs

/-- The `try: value = int(linetokens[i]) ... except:` range check of rules
17 and 18: the bare `except` also catches the `IndexError` of a missing
token. -/
def srvRange (lt : List PStr) (i : Nat) (tag l : PStr) (errs : List PStr) :
    List PStr :=
  match lt.get? i with
  | none => errs ++ [tag ++ l]
  | some t =>
    match pyInt t with
    | none => errs ++ [tag ++ l]
    | some v => if v < 0 ∨ v > 65535 then errs ++ [tag ++ l] else errs

def rule17body (l : PStr) (errs : List PStr) : Except Crash (List PStr) := do
  let lt ← tokenizeLine l
  let tag := pstr "wrong SRV record! "
  let errs := errs ++ (if lt.length ≠ 8 then [tag ++ l] else [])
  let errs ← ownerCheck lt tag l errs
  let t1 ← hGet lt 1
  let n1 ← checkNumber t1
  let errs := errs ++ (if ¬n1 then [tag ++ l] else [])
  let errs := srvRange lt 4 tag l errs
  let errs := srvRange lt 5 tag l errs
  let errs := srvRange lt 6 tag l errs
  let t7 ← hGet lt 7
  let h7 ← checkHostname t7
  pure (errs ++ (if ¬h7 then [tag ++ l] else []))

def checkRule17 (lines : List PStr) (errs : List PStr) :
    Except Crash (List PStr) :=
  ruleScanGo (ruleHeadPat (pstr "IN SRV")) rule17body lines errs

/-- Rule 18's range checks report `wrong SRV record!` (copy-paste in the
source). -/
def rule18body (l : PStr) (errs : List PStr) : Except Crash (List PStr) := do
  let lt ← tokenizeLine l
  let tag := pstr "wrong URI record! "
  let errs := errs ++ (if lt.length ≠ 7 then [tag ++ l] else [])
  let errs ← ownerCheck lt tag l errs
  let t1 ← hGet lt 1
  let n1 ← checkNumber t1
  let errs := errs ++ (if ¬n1 then [tag ++ l] else [])
  let errs := srvRange lt 4 (pstr "wrong SRV record! ") l errs
  let errs := srvRange lt 5 (pstr "wrong SRV record! ") l errs
  pure errs

def checkRule18 (lines : List PStr) (errs : List PStr) :
    Except Crash (List PStr) :=
  ruleScanGo (ruleHeadPat (pstr "IN URI")) rule18body lines errs

/-- `ParseZoneFile.validate` (source lines 80-143): re-normalize the stored
input through `_ShakeoffComments`, `_Levelout` and `_Fillup`, then run the
18 rules.  `self.__ruleerror` is empty after construction, so the first
call starts from the empty diagnostic list, as modelled. -/
def validate (input : PStr) : Except Crash (Bool × List PStr) := do
  let t1 ← shakeoffComments input
  let f ← fillup (levelout t1) []
  let lines := splitOnChar '\n' f.1
  let e1 ← checkRule01 lines f.2
  let e2 ← checkRule02 lines e1
  let e3 := checkRule03 lines e2
  let e4 := checkRule04 lines e3
  let e5 ← checkRule05 lines e4
  let e6 := checkRule06 lines e5
  let e7 := checkRule07 lines e6
  let e8 ← checkRule08 lines e7
  let e9 ← checkRule09 lines e8
  let e10 ← checkRule10 lines e9
  let e11 ← checkRule11 lines e10
  let e12 ← checkRule12 lines e11
  let e13 ← checkRule13 lines e12
  let e14 ← checkRule14 lines e13
  let e15 ← checkRule15 lines e14
  let e16 ← checkRule16 lines e15
  let e17 ← checkRule17 lines e16
  let e18 ← checkRule18 lines e17
  pure (if e18.length ≠ 0 then (false, e18) else (true, []))

/-! ## Generator (`class GenerateZoneFile`, source lines 1288-1631)

`json.loads` of the constructor argument is a pure deserialization that the
spec (§1) places out of scope; `GenDoc` is the decoded dictionary, with
`none` meaning the key is absent. -/

/-- Python `text.replace(pat, rep)` (all non-overlapping occurrences,
left to right).  The fuel argument (the input length, strictly decreased
faster than the scanned text below) only makes the recursion structural;
its zero case is unreachable from `replaceAll`. -/
def replAllGo (pat rep : PStr) : Nat → PStr → PStr
  | 0, s => s
  | fuel + 1, s =>
    match s with
    | [] => []
    | c :: cs =>
      if pat.length ≠ 0 ∧ pat.isPrefixOf (c :: cs) then
        rep ++ replAllGo pat rep fuel (List.drop (pat.length - 1) cs)
      else c :: replAllGo pat rep fuel cs

def replaceAll (pat rep s : PStr) : PStr := replAllGo pat rep s.length s

/-- The JSON zone dictionary handed to `GenerateZoneFile`. -/
structure GenDoc where
  origin : Option Value := none
  ttl : Option Value := none
  soa : Option (List RecD) := none
  ns : Option (List RecD) := none
  a : Option (List RecD) := none
  aaaa : Option (List RecD) := none
  cname : Option (List RecD) := none
  hinfo : Option (List RecD) := none
  mx : Option (List RecD) := none
  ptr : Option (List RecD) := none
  txt : Option (List RecD) := none
  srv : Option (List RecD) := none
  uri : Option (List RecD) := none
deriving DecidableEq, Repr

/-- One serialized record line of `__make_rr`: `name [ttl] TYPE fields…`
(a missing field key is the modelled `KeyError`; the preceding
`Missing record key!` log line has no observable effect). -/
def genRowLine (row : RecD) (rt : PStr) (keys : List PStr) :
    Except Crash (List PStr) := do
  let nameV := (recLookup row (pstr "name")).getD (Value.vstr (pstr "@"))
  let ttlPart :=
    match recLookup row (pstr "ttl") with
    | some v => if v ≠ Value.vnone then [valueStr v] else []
    | none => []
  let vals ← keys.mapM fun k =>
    match recLookup row k with
    | some v => Except.ok (valueStr v)
    | none => Except.error Crash.keyError
  pure ([valueStr nameV] ++ ttlPart ++ [rt] ++ vals)

/-- The accumulation loop of `__make_rr`.  When `record_data[1]` is the
literal `HINFO` (an HINFO record without a ttl), the source *assigns*
instead of appending: the quoted triple overwrites everything accumulated
so far and carries no newline. -/
def makeRRGo (rows : List RecD) (rt : PStr) (keys : List PStr)
    (record : PStr) : Except Crash PStr :=
  match rows with
  | [] => .ok record
  | row :: rest => do
    let rd ← genRowLine row rt keys
    let record2 ←
      if rd.getD 1 [] = pstr "HINFO" then do
        let a0 ← hGet rd 0
        let a1 ← hGet rd 1
        let a2 ← hGet rd 2
        let a3 ← hGet rd 3
        pure (a0 ++ pstr " \"" ++ a1 ++ pstr "\" \"" ++ a2 ++ pstr "\" \"" ++
          a3 ++ pstr "\"")
      else pure (record ++ joinWith [' '] rd ++ ['\n'])
    makeRRGo rest rt keys record2

/-- `__make_rr`: substitute the serialized records (or the empty string
when the key was absent) for the template field. -/
def makeRR (rowdata : Option (List RecD)) (rt : PStr) (keys : List PStr)
    (field : PStr) (zf : PStr) : Except Crash PStr := do
  match rowdata with
  | none => pure (replaceAll field [] zf)
  | some rows => do
    let record ← makeRRGo rows rt keys []
    pure (replaceAll field record zf)

/-- `_Make_origin`. -/
def makeOrigin (zd : GenDoc) (zf : PStr) : PStr :=
  let record :=
    match zd.origin with
    | some v => pstr "$ORIGIN " ++ valueStr v
    | none => []
  replaceAll (pstr "\x7b$origin\x7d") record zf

/-- `_Make_ttl`. -/
def makeTtl (zd : GenDoc) (zf : PStr) : PStr :=
  let record :=
    match zd.ttl with
    | some v => pstr "$TTL " ++ valueStr v
    | none => []
  replaceAll (pstr "\x7b$ttl\x7d") record zf

/-- `_Make_soa` (source lines 1404-1454).  `self.__zonedict['soa']` is
unguarded (`KeyError` when absent).  The reset `if len(rowdata) >= 1:
rowdata = None` (with the `Only one SOA is possible` warning) fires for
*every* non-empty list, so the serialization body below it is reachable
only with an empty list — where `rowdata[0]` raises `IndexError`.  A
non-empty `soa` list therefore always yields the emptied section. -/
def makeSoa (zd : GenDoc) (zf : PStr) : Except Crash PStr := do
  let rowdata ←
    match zd.soa with
    | none => Except.error Crash.keyError
    | some r => Except.ok r
  if rowdata.length ≥ 1 then pure (replaceAll (pstr "\x7bsoa\x7d") [] zf)
  else .error .indexError

def escSemis (s : PStr) : PStr :=
  s.flatMap fun c => if c = ';' then [Char.ofNat 92, ';'] else [c]

def quoteP (s : PStr) : PStr := '"' :: s ++ ['"']

/-- The TXT re-quoting of `_Make_txt` applied to the duplicated rows. -/
def makeTxtRows (rows : List RecD) : Except Crash (List RecD) :=
  rows.mapM fun row => do
    match recLookup row (pstr "txt") with
    | none => .error .keyError
    | some (Value.vlist l) =>
      pure (row.map fun kv =>
        if kv.1 = pstr "txt" then
          (kv.1, Value.vstr (joinWith [' '] (l.map fun e => quoteP (escSemis e))))
        else kv)
    | some (Value.vstr s) =>
      pure (row.map fun kv =>
        if kv.1 = pstr "txt" then (kv.1, Value.vstr (quoteP (escSemis s)))
        else kv)
    | some _ => .error .attrError

/-- `_Make_txt`. -/
def makeTxt (zd : GenDoc) (zf : PStr) : Except Crash PStr := do
  match zd.txt with
  | none => makeRR none (pstr "TXT") [pstr "txt"] (pstr "\x7btxt\x7d") zf
  | some rows => do
    let rows2 ← makeTxtRows rows
    makeRR (some rows2) (pstr "TXT") [pstr "txt"] (pstr "\x7btxt\x7d") zf

/-- `_Make_uri`: the loop body references the undefined name `field`, so a
non-empty list raises `NameError` inside the `try`, whose bare `except`
resets the rows to None; an absent key takes the same path, and an empty
list loops zero times producing the empty serialization.  Every case
substitutes the empty string. -/
def makeUri (zf : PStr) : PStr := replaceAll (pstr "\x7buri\x7d") [] zf

/-- `DEFAULT_TEMPLATE` (source lines 1724-1748), with the line-continuation
backslashes resolved. -/
def defaultTemplate : PStr :=
  pstr "\n\x7b$origin\x7d\n\x7b$ttl\x7d\n\n\x7bsoa\x7d\n\n\x7bns\x7d\n\n\x7bmx\x7d\n\n\x7ba\x7d\n\n\x7baaaa\x7d\n\n\x7bcname\x7d\n\n\x7bhinfo\x7d\n\n\x7bptr\x7d\n\n\x7btxt\x7d\n\n\x7bsrv\x7d\n\n\x7buri\x7d\n"

/-- `GenerateZoneFile(zonejson, origin, ttl, template).showtext()`:
the full generation pipeline, ending with the blank-line strip (each kept
line is itself stripped and re-terminated, plus one final newline). -/
def generateZoneFile (zd0 : GenDoc) (origin ttl : Option Value)
    (template : Option PStr) : Except Crash PStr := do
  let zd :=
    { zd0 with
      origin := match origin with | some o => some o | none => zd0.origin,
      ttl := match ttl with | some t => some t | none => zd0.ttl }
  let zf := template.getD defaultTemplate
  let zf := makeTtl zd (makeOrigin zd zf)
  let zf ← makeSoa zd zf
  let zf ← makeRR zd.ns (pstr "NS") [pstr "host"] (pstr "\x7bns\x7d") zf
  let zf ← makeRR zd.a (pstr "A") [pstr "ip"] (pstr "\x7ba\x7d") zf
  let zf ← makeRR zd.aaaa (pstr "AAAA") [pstr "ip"] (pstr "\x7baaaa\x7d") zf
  let zf ← makeRR zd.cname (pstr "CNAME") [pstr "alias"] (pstr "\x7bcname\x7d") zf
  let zf ← makeRR zd.hinfo (pstr "HINFO") [pstr "cpu", pstr "system"]
    (pstr "\x7bhinfo\x7d") zf
  let zf ← makeRR zd.mx (pstr "MX") [pstr "preference", pstr "host"]
    (pstr "\x7bmx\x7d") zf
  let zf ← makeRR zd.ptr (pstr "PTR") [pstr "host"] (pstr "\x7bptr\x7d") zf
  let zf ← makeTxt zd zf
  let zf ← makeRR zd.srv (pstr "SRV")
    [pstr "priority", pstr "weight", pstr "port", pstr "target"]
    (pstr "\x7bsrv\x7d") zf
  let zf := makeUri zf
  let out := (splitOnChar '\n' zf).foldl
    (fun acc l =>
      if (stripAllWs l).length ≠ 0 then acc ++ stripAllWs l ++ ['\n'] else acc)
    []
  pure (out ++ ['\n'])

/-! ## Concrete inputs used by the claims -/

/-- The end-to-end input of §8 of the spec, with the SOA line written
`@ IN SOA …` exactly as the spec gives it. -/
def c1Input : PStr :=
  pstr "$ORIGIN example.com.\n$TTL 1D\n@ IN SOA ns1.example.com. admin.example.com. ( 2024010100 3600 900 604800 86400 )\n@ IN NS ns1.example.com.\nwww IN A 192.0.2.1"

/-- The same input with the SOA line in the `@ SOA …` form (no `IN` class
token), which is the only form this parser's SOA branches recognize. -/
def c1InputAmended : PStr :=
  pstr "$ORIGIN example.com.\n$TTL 1D\n@ SOA ns1.example.com. admin.example.com. ( 2024010100 3600 900 604800 86400 )\n@ IN NS ns1.example.com.\nwww IN A 192.0.2.1"

/-- A well-formed SOA record in the generator's JSON shape. -/
def c2SoaRec : RecD :=
  [(pstr "name", .vstr (pstr "@")),
   (pstr "mname", .vstr (pstr "ns1.example.com.")),
   (pstr "rname", .vstr (pstr "admin.example.com.")),
   (pstr "serial", .vint 2024010100), (pstr "refresh", .vint 3600),
   (pstr "retry", .vint 900), (pstr "expire", .vint 604800),
   (pstr "minimum", .vint 86400)]

/-- A document with exactly one `$ORIGIN`, one `$TTL` and exactly one SOA
record — inside the domain the round-trip claim quantifies over. -/
def c2Doc : GenDoc :=
  { origin := some (.vstr (pstr "example.com.")), ttl := some (.vint 86400),
    soa := some [c2SoaRec] }

/-- A zone whose PTR host field differs from its owner name. -/
def c3Input : PStr :=
  pstr "$ORIGIN example.com.\nptr1 IN PTR target.example.net."

/-- A parser state whose current origin is `example.com.` (as after
processing an `$ORIGIN example.com.` line), used to exercise one
`_parse_line` step. -/
def c3State : PState :=
  { input := [], lasthost := some [], origin := pstr "example.com.",
    currentTtl := [], text := [], zd := {} }

/-- The canonical tokens of the line `ptr1 0 PTR target.example.net.`. -/
def c3Tokens : List PStr :=
  [pstr "ptr1", pstr "0", pstr "PTR", pstr "target.example.net."]

/-- The two-line continuation input of the owner-inheritance claim. -/
def c9Input : PStr := pstr "www 300 IN A 1.2.3.4\n 300 IN A 1.2.3.5"

/-- A single A record carrying an explicit ttl literal of 300. -/
def c7Input : PStr := pstr "www 300 IN A 1.2.3.4"

/-- The PTR record that `parseLineStep c3State c3Tokens` appends. -/
def c3RecOut : RecD :=
  [(pstr "name", .vstr (pstr "ptr1")), (pstr "ttl", .vint 0),
   (pstr "host", .vstr (pstr "target.example.net.")),
   (pstr "fullname", .vstr (pstr "ptr1.example.com."))]

/-- The state after `parseLineStep c3State c3Tokens`. -/
def c3StateOut : PState :=
  { input := [], lasthost := some [], origin := pstr "example.com.",
    currentTtl := [], text := [], zd := { ptr := [c3RecOut] } }

/-- A one-SOA document for exercising `_Make_soa` alone. -/
def c5Doc : GenDoc := { soa := some [c2SoaRec] }

def c5Template : PStr := pstr "X\x7bsoa\x7dY"

/-- A minimal input on which the whole constructor pipeline completes. -/
def c10Input : PStr := pstr "x A 1"

/-- The state `ParseZoneFile("x A 1")` ends in. -/
def c10StateOut : PState :=
  { input := pstr "x A 1", lasthost := some (pstr "x"), origin := [],
    currentTtl := [], text := pstr "x 0 A 1",
    zd := { a := [[(pstr "name", .vstr (pstr "x")), (pstr "ttl", .vint 0),
                   (pstr "ip", .vstr (pstr "1"))]] } }

/-! # Claim theorems -/

/-- Claim C1, counterexample: on the spec's exact §8 input the parsed
dictionary contains **no** SOA record (the `@ IN SOA` line matches neither
the `@ SOA` prefix branches nor the record-type alternation, which lacks
SOA, so `_AddLastHost` drops it) and `validate()` returns `ok = false` —
refuting both the one-SOA conjunct and the ok-true conjunct. -/
theorem c1_spec_input_fails :
    (mkParseZoneFile c1Input).map (fun st => st.zd.soa) = .ok [] ∧
    (validate c1Input).map Prod.fst = .ok false := by
  exact ⟨by rfl, by rfl⟩

/-- Claim C1, amended: with the SOA line written `@ SOA …` (no `IN` class
token), parsing the five-line input yields ttl 86400, exactly one SOA
record with serial 2024010100, exactly one NS record and exactly one A
record with ip `192.0.2.1`, and `validate()` returns ok with no
diagnostics. -/
theorem c1_end_to_end_amended :
    (mkParseZoneFile c1InputAmended).map
      (fun st =>
        (st.zd.ttl, st.zd.soa.map (fun r => recLookup r (pstr "serial")),
         st.zd.ns.length, st.zd.a.map (fun r => recLookup r (pstr "ip")))) =
      .ok (some (.vint 86400), [some (.vint 2024010100)], 1,
        [some (.vstr (pstr "192.0.2.1"))]) ∧
    validate c1InputAmended = .ok (true, []) := by
  exact ⟨by rfl, by rfl⟩

/-- Claim C2: rendering a document that satisfies the round-trip
hypotheses (exactly one `$ORIGIN`, one `$TTL`, at most one SOA — here
exactly one) and reparsing loses the SOA record entirely: `_Make_soa`
empties the `soa` section for every non-empty list. -/
theorem c2_round_trip_loses_soa :
    c2Doc.soa.map List.length = some 1 ∧
    ((generateZoneFile c2Doc none none none).bind mkParseZoneFile).map
      (fun st => st.zd.soa) = .ok [] := by
  exact ⟨by rfl, by rfl⟩

/-- Claim C3, counterexample: for the PTR record of `c3Input`, whose owner
is `ptr1` and whose host field is `target.example.net.`, the derived
fullname is `ptr1.example.com.` — built from the owner name — and differs
from host ++ "." ++ origin. -/
theorem c3_fullname_not_from_host :
    (mkParseZoneFile c3Input).map
      (fun st => st.zd.ptr.map fun r =>
        (recLookup r (pstr "host"), recLookup r (pstr "fullname"))) =
      .ok [(some (.vstr (pstr "target.example.net.")),
            some (.vstr (pstr "ptr1.example.com.")))] ∧
    pstr "ptr1.example.com." ≠
      pstr "target.example.net." ++ pstr "." ++ pstr "example.com." := by
  exact ⟨by rfl, by decide⟩

/-- Claim C4: the constructor pipeline raises an uncaught `IndexError` on
the empty input — `_AddLastHost` tokenizes the single empty line and
`_tokenize_line` reads `linechars[0]` of the empty character list. -/
theorem c4_empty_input_crashes :
    mkParseZoneFile (pstr "") = .error .indexError := by
  rfl

/-- Claim C6: evaluating `__check_hostname` on the three reference inputs.
The 64-character label is invalid and `example.com.` valid as claimed, but
`example.123.` returns **True**: the all-numeric-TLD rejection is dead code
(its `ret = False` is overwritten by the final per-label `if`/`else`). -/
theorem c6_hostname_reference_inputs :
    checkHostname (List.replicate 64 'a' ++ pstr ".example.com.") = .ok false ∧
    checkHostname (pstr "example.123.") = .ok true ∧
    checkHostname (pstr "example.com.") = .ok true := by
  exact ⟨by rfl, by rfl, by rfl⟩

/-- Claim C7, counterexample: the record-level ttl literal 300 — outside
`[900, 2^31 − 1]` — is stored verbatim in the parsed document, neither
replaced by 86400 nor flagged. -/
theorem c7_record_ttl_not_range_checked :
    (mkParseZoneFile c7Input).map
      (fun st => st.zd.a.map fun r => recLookup r (pstr "ttl")) =
      .ok [some (.vint 300)] ∧ (300 : Int) < 900 := by
  exact ⟨by rfl, by decide⟩

/-- Claim C8: `ConvertTime.convert("XS")` raises `ValueError` — the unit
suffix `S` is recognized, and the unguarded inner `int('0X')` escapes the
method. -/
theorem c8_convert_raises :
    convertTime (pstr "XS") = .error .valueError := by
  rfl

/-- Claim C9: both A records of the continuation input end up with owner
`"w"` — the continuation line does inherit the remembered owner, but the
owner/ttl regex `([a-z0-9-@_]+?)*` captures only the last character of
`www`, so the stored (and inherited) owner is the truncated `"w"`, not
`"www"`. -/
theorem c9_owner_truncated_to_last_char :
    (mkParseZoneFile c9Input).map
      (fun st => st.zd.a.map fun r => recLookup r (pstr "name")) =
      .ok [some (.vstr (pstr "w")), some (.vstr (pstr "w"))] := by
  rfl

/-! ## Supporting lemmas for the symbolic claims -/

theorem except_bind_ok {ε α β : Type} (x : Except ε α) (f : α → Except ε β)
    (b : β) (h : x >>= f = .ok b) : ∃ a, x = .ok a ∧ f a = .ok b := by
  cases x with
  | error e => exact absurd h (by simp [Bind.bind, Except.bind])
  | ok a => exact ⟨a, rfl, by simpa [Bind.bind, Except.bind] using h⟩

theorem except_map_ok {ε α β : Type} (f : α → β) (x : Except ε α) (b : β)
    (h : x.map f = .ok b) : ∃ a, x = .ok a ∧ b = f a := by
  cases x with
  | error e => exact absurd h (by simp [Except.map])
  | ok a => exact ⟨a, rfl, by simpa [Except.map] using h.symm⟩

theorem recLookup_append_left (xs ys : RecD) (k : PStr) (v : Value)
    (h : recLookup xs k = some v) : recLookup (xs ++ ys) k = some v := by
  induction xs with
  | nil => simp [recLookup] at h
  | cons p rest ih =>
    by_cases hk : p.1 = k
    · simpa [recLookup, hk] using by simpa [recLookup, hk] using h
    · rw [List.cons_append, recLookup, if_neg hk]
      rw [recLookup, if_neg hk] at h
      exact ih h

theorem stage1_origin (o c : PStr) (tk : List PStr)
    (s1 : List PStr × PStr × PStr) (h : stage1 o c tk = .ok s1) :
    s1.2.1 = originUpdate o tk := by
  unfold stage1 at h
  obtain ⟨t0, ht0, h⟩ := except_bind_ok _ _ _ h
  obtain ⟨sA, hA, h⟩ := except_bind_ok _ _ _ h
  obtain ⟨tk2, hB, h⟩ := except_bind_ok _ _ _ h
  obtain ⟨o1, hC, h⟩ := except_bind_ok _ _ _ h
  have hs1 : s1 = (tk2, o1, sA.2) := by
    simpa [pure, Except.pure] using h.symm
  subst hs1
  cases tk with
  | nil => exact absurd ht0 (by simp [hGet])
  | cons t0' rest =>
    have ht0' : t0 = t0' := by simpa [hGet] using ht0.symm
    subst ht0'
    by_cases hO : upperStr t0 = pstr "$ORIGIN"
    · have hT : ¬upperStr t0 = pstr "$TTL" := by rw [hO]; decide
      have hAt : ¬t0 = pstr "@" := by
        intro hh
        rw [hh] at hO
        exact absurd hO (by decide)
      rw [ttlFix, if_neg hT] at hA
      have hsA : sA = (t0 :: rest, c) := by simpa [pure, Except.pure] using hA.symm
      rw [soaFix, if_neg hAt] at hB
      have htk2 : tk2 = sA.1 := by simpa [pure, Except.pure] using hB.symm
      rw [originFix, if_pos hO] at hC
      rw [htk2, hsA] at hC
      cases rest with
      | nil => exact absurd hC (by simp [hGet])
      | cons t1 r2 =>
        have : o1 = t1 := by simpa [hGet] using hC.symm
        simp [this, originUpdate, hO]
    · rw [originFix, if_neg hO] at hC
      have ho1 : o1 = o := by simpa [pure, Except.pure] using hC.symm
      cases rest with
      | nil => simp [ho1, originUpdate]
      | cons t1 r2 => simp [ho1, originUpdate, hO]

theorem zdAppend_ptr (zd : ZoneDict) (rd : RecD) :
    (zdAppend zd (pstr "PTR") rd).ptr = zd.ptr ++ [rd] := by
  rfl

theorem zdAppend_ptr_ne (zd : ZoneDict) (r : PStr) (rd : RecD)
    (hr : r ≠ pstr "PTR") : (zdAppend zd r rd).ptr = zd.ptr := by
  unfold zdAppend
  by_cases h1 : r = pstr "SOA"
  · rw [if_pos h1]
  rw [if_neg h1]
  by_cases h2 : r = pstr "NS"
  · rw [if_pos h2]
  rw [if_neg h2]
  by_cases h3 : r = pstr "A"
  · rw [if_pos h3]
  rw [if_neg h3]
  by_cases h4 : r = pstr "AAAA"
  · rw [if_pos h4]
  rw [if_neg h4]
  by_cases h5 : r = pstr "CNAME"
  · rw [if_pos h5]
  rw [if_neg h5]
  by_cases h6 : r = pstr "MX"
  · rw [if_pos h6]
  rw [if_neg h6]
  by_cases h7 : r = pstr "TXT"
  · rw [if_pos h7]
  rw [if_neg h7]
  rw [if_neg hr]
  by_cases h8 : r = pstr "SRV"
  · rw [if_pos h8]
  rw [if_neg h8]
  by_cases h9 : r = pstr "URI"
  · rw [if_pos h9]
  rw [if_neg h9]
  by_cases h10 : r = pstr "HINFO"
  · rw [if_pos h10]
  rw [if_neg h10]

theorem insertRecord_ptr (zd : ZoneDict) (o : PStr) (rt : Option PStr)
    (rd0 : RecD) (zd2 : ZoneDict) (h : insertRecord zd o rt rd0 = .ok zd2) :
    zd2.ptr = zd.ptr ∨
    (rt = some (pstr "PTR") ∧ ∃ nm,
      recLookup rd0 (pstr "name") = some (.vstr nm) ∧
      zd2.ptr = zd.ptr ++
        [rd0 ++ [(pstr "fullname", Value.vstr (nm ++ '.' :: o))]]) := by
  unfold insertRecord at h
  obtain ⟨rd, hrd, hbody⟩ := except_bind_ok _ _ _ h
  clear h
  unfold ptrFixup at hrd
  cases rt with
  | none =>
    rw [if_neg (by simp)] at hrd
    have hrd0 : rd0 = rd := by injection hrd
    subst hrd0
    left
    by_cases hZ : rd0.length = 0
    · rw [if_pos hZ] at hbody
      have : zd2 = zd := by simpa [pure, Except.pure] using hbody.symm
      rw [this]
    · rw [if_neg hZ] at hbody
      exact absurd hbody (by simp)
  | some r =>
    by_cases hP : r = pstr "PTR"
    · subst hP
      rw [if_pos rfl] at hrd
      cases hL : recLookup rd0 (pstr "name") with
      | none => rw [hL] at hrd; exact absurd hrd (by simp)
      | some v =>
        cases v with
        | vstr nm =>
          rw [hL] at hrd
          have hrdv : rd0 ++ [(pstr "fullname", Value.vstr (nm ++ '.' :: o))] = rd := by
            injection hrd
          rw [← hrdv] at hbody
          rw [if_neg (by simp)] at hbody
          dsimp only at hbody
          rw [if_neg (by decide : ¬(pstr "PTR").head? = some '$')] at hbody
          have hz : zd2 = zdAppend zd (pstr "PTR")
              (rd0 ++ [(pstr "fullname", Value.vstr (nm ++ '.' :: o))]) := by
            simpa [pure, Except.pure] using hbody.symm
          right
          exact ⟨rfl, nm, rfl, by rw [hz, zdAppend_ptr]⟩
        | vint n => rw [hL] at hrd; exact absurd hrd (by simp)
        | vnone => rw [hL] at hrd; exact absurd hrd (by simp)
        | vlist l => rw [hL] at hrd; exact absurd hrd (by simp)
    · rw [if_neg (by simpa using hP)] at hrd
      have hrd0 : rd0 = rd := by injection hrd
      subst hrd0
      left
      by_cases hZ : rd0.length = 0
      · rw [if_pos hZ] at hbody
        have : zd2 = zd := by simpa [pure, Except.pure] using hbody.symm
        rw [this]
      · rw [if_neg hZ] at hbody
        dsimp only at hbody
        by_cases hD : r.head? = some '$'
        · rw [if_pos hD] at hbody
          cases hL : recLookup rd0 r with
          | none => rw [hL] at hbody; exact absurd hbody (by simp)
          | some v =>
            rw [hL] at hbody
            dsimp only at hbody
            by_cases hOr : r = pstr "$ORIGIN"
            · rw [if_pos hOr] at hbody
              have : zd2 = {zd with origin := some v} := by
                simpa [pure, Except.pure] using hbody.symm
              rw [this]
            · rw [if_neg hOr] at hbody
              by_cases hTt : r = pstr "$TTL"
              · rw [if_pos hTt] at hbody
                have : zd2 = {zd with ttl := some v} := by
                  simpa [pure, Except.pure] using hbody.symm
                rw [this]
              · rw [if_neg hTt] at hbody
                have : zd2 = zd := by simpa [pure, Except.pure] using hbody.symm
                rw [this]
        · rw [if_neg hD] at hbody
          have : zd2 = zdAppend zd r rd0 := by
            simpa [pure, Except.pure] using hbody.symm
          rw [this]
          exact zdAppend_ptr_ne zd r rd0 hP

/-- Inversion of one `_parse_line` step: the returned state is always the
incoming state with only `__current_origin`, `_current_ttl` (and, on the
normal path, the zone dictionary through `insertRecord`) updated. -/
theorem parseLineStep_inv (st : PState) (tk : List PStr) (r : LineRes)
    (h : parseLineStep st tk = .ok r) :
    ∃ s1, stage1 st.origin st.currentTtl tk = .ok s1 ∧
      (r = .invalid {st with origin := s1.2.1, currentTtl := s1.2.2} ∨
       ∃ rt rd3 zd2, insertRecord st.zd s1.2.1 rt rd3 = .ok zd2 ∧
         r = .done {st with origin := s1.2.1, currentTtl := s1.2.2, zd := zd2}) := by
  unfold parseLineStep at h
  obtain ⟨s1, h1, h⟩ := except_bind_ok _ _ _ h
  refine ⟨s1, h1, ?_⟩
  cases hD : argDispatch (prependType s1.1) with
  | error e =>
    rw [hD] at h
    left
    simpa [pure, Except.pure] using h.symm
  | ok rd0 =>
    rw [hD] at h
    obtain ⟨zd2, hI, h⟩ := except_bind_ok _ _ _ h
    right
    exact ⟨_, _, zd2, hI, by simpa [pure, Except.pure] using h.symm⟩

/-- Claim C3, amended: whenever a `_parse_line` step appends a PTR record,
the appended record's derived trailing field is
`fullname = name ++ "." ++ current_origin` — built from the record's
**owner name**, not from its PTR host field — where the current origin
after the step follows the sequential `originUpdate` rule and hence equals
the most recently seen `$ORIGIN` value at that point of the document. -/
theorem c3_ptr_fullname_amended (st : PState) (tk : List PStr) (st' : PState)
    (rd : RecD) (h : parseLineStep st tk = .ok (.done st'))
    (hnew : st'.zd.ptr = st.zd.ptr ++ [rd]) :
    (∃ nm, recLookup rd (pstr "name") = some (.vstr nm) ∧
      rd.getLast? = some (pstr "fullname",
        Value.vstr (nm ++ '.' :: st'.origin))) ∧
    st'.origin = originUpdate st.origin tk := by
  obtain ⟨s1, h1, hbr⟩ := parseLineStep_inv st tk (.done st') h
  rcases hbr with hinv | ⟨rt, rd3, zd2, hI, hdone⟩
  · exact absurd hinv (by simp)
  · have hst' :
        st' = {st with origin := s1.2.1, currentTtl := s1.2.2, zd := zd2} := by
      simpa using hdone
    have horig : st'.origin = s1.2.1 := by rw [hst']
    have hzd : st'.zd = zd2 := by rw [hst']
    rcases insertRecord_ptr st.zd s1.2.1 rt rd3 zd2 hI with hsame |
      ⟨hPTR, nm, hnm, happ⟩
    · rw [hzd, hsame] at hnew
      exact absurd hnew (by simp)
    · rw [hzd, happ] at hnew
      have hrd : rd3 ++ [(pstr "fullname",
          Value.vstr (nm ++ '.' :: s1.2.1))] = rd := by
        simpa using List.append_cancel_left hnew
      constructor
      · refine ⟨nm, ?_, ?_⟩
        · rw [← hrd]
          exact recLookup_append_left rd3 _ _ _ hnm
        · rw [← hrd, horig]
          exact List.getLast?_concat _
      · rw [horig]
        exact stage1_origin _ _ _ _ h1

/-- Claim C3, witness: the amended property evaluated on one concrete
`_parse_line` step (the line `ptr1 0 PTR target.example.net.` parsed with
current origin `example.com.`). -/
theorem c3_ptr_fullname_amended_witness :
    (∃ nm, recLookup c3RecOut (pstr "name") = some (.vstr nm) ∧
      c3RecOut.getLast? = some (pstr "fullname",
        Value.vstr (nm ++ '.' :: c3StateOut.origin))) ∧
    c3StateOut.origin = originUpdate c3State.origin c3Tokens :=
  c3_ptr_fullname_amended c3State c3Tokens c3StateOut c3RecOut
    (by rfl) (by rfl)

/-! ## Frame lemmas for the constructor pipeline -/

theorem parseLineStep_input (st : PState) (tk : List PStr) (r : LineRes)
    (h : parseLineStep st tk = .ok r) (s : PState)
    (hs : r = .done s ∨ r = .invalid s) : s.input = st.input := by
  obtain ⟨s1, _, hbr⟩ := parseLineStep_inv st tk r h
  rcases hbr with hinv | ⟨rt, rd3, zd2, _, hdone⟩
  · rcases hs with hd | hi
    · rw [hd] at hinv; exact absurd hinv (by simp)
    · rw [hi] at hinv
      have : s = {st with origin := s1.2.1, currentTtl := s1.2.2} := by
        simpa using hinv
      rw [this]
  · rcases hs with hd | hi
    · rw [hd] at hdone
      have : s = {st with origin := s1.2.1, currentTtl := s1.2.2, zd := zd2} := by
        simpa using hdone
      rw [this]
    · rw [hi] at hdone; exact absurd hdone (by simp)

theorem parseLinesGo_input (ls : List PStr) : ∀ st st2 : PState,
    parseLinesGo st ls = .ok st2 → st2.input = st.input := by
  induction ls with
  | nil =>
    intro st st2 h
    have : st2 = st := by
      simpa [parseLinesGo, pure, Except.pure] using h.symm
    rw [this]
  | cons l ls ih =>
    intro st st2 h
    unfold parseLinesGo at h
    obtain ⟨tk, htk, h⟩ := except_bind_ok _ _ _ h
    obtain ⟨r, hr, h⟩ := except_bind_ok _ _ _ h
    cases r with
    | done s =>
      rw [ih s st2 h]
      exact parseLineStep_input st tk _ hr s (Or.inl rfl)
    | invalid s =>
      rw [ih s st2 h]
      exact parseLineStep_input st tk _ hr s (Or.inr rfl)

theorem shakePass_input (s s2 : PState) (h : shakePass s = .ok s2) :
    s2.input = s.input := by
  unfold shakePass at h
  obtain ⟨t, _, h⟩ := except_bind_ok _ _ _ h
  have : s2 = {s with text := t} := by simpa [pure, Except.pure] using h.symm
  rw [this]

theorem addLastHostPass_input (s s2 : PState)
    (h : addLastHostPass s = .ok s2) : s2.input = s.input := by
  unfold addLastHostPass at h
  obtain ⟨t, _, h⟩ := except_bind_ok _ _ _ h
  have : s2 = {s with text := t.1, lasthost := t.2} := by
    simpa [pure, Except.pure] using h.symm
  rw [this]

/-- Claim C10: whenever construction completes, `showinput` returns the
exact constructor argument — the normalization passes rewrite only the
working text buffer (`_text`), never the stored original (`__input`). -/
theorem c10_showinput_preserved (t : PStr) (st : PState)
    (h : mkParseZoneFile t = .ok st) : showinput st = t := by
  unfold mkParseZoneFile at h
  obtain ⟨s1, h1, h⟩ := except_bind_ok _ _ _ h
  obtain ⟨s4, h4, h⟩ := except_bind_ok _ _ _ h
  have e1 : s1.input = t := by rw [shakePass_input _ _ h1]; rfl
  have e4 : s4.input = s1.input := by rw [addLastHostPass_input _ _ h4]; rfl
  have e5 : st.input = s4.input := by
    unfold parseLinesPass at h
    rw [parseLinesGo_input _ _ _ h]
  rw [showinput, e5, e4, e1]

/-- Claim C10, witness: the preservation theorem applied to a concrete
input on which construction completes. -/
theorem c10_showinput_preserved_witness : showinput c10StateOut = c10Input :=
  c10_showinput_preserved c10Input c10StateOut (by rfl)

/-! ## The SOA-section and time-range claims -/

/-- Claim C5: `_Make_soa` substitutes the empty string for the soa section
of the template (logging `Only one SOA is possible`) for **every** document
whose soa list is non-empty — including the exactly-one case the spec says
is rendered — because the reset condition is `len(rowdata) >= 1` instead of
`> 1`. -/
theorem c5_soa_section_emptied (g : GenDoc) (rows : List RecD) (zf : PStr)
    (h : g.soa = some rows) (hne : 1 ≤ rows.length) :
    makeSoa g zf = .ok (replaceAll (pstr "\x7bsoa\x7d") [] zf) := by
  unfold makeSoa
  rw [h]
  dsimp only [Bind.bind, Except.bind]
  rw [if_pos hne]
  rfl

/-- Claim C5, witness: the emptied-section theorem evaluated on a document
with exactly one SOA record. -/
theorem c5_soa_section_emptied_witness :
    makeSoa c5Doc c5Template =
      .ok (replaceAll (pstr "\x7bsoa\x7d") [] c5Template) :=
  c5_soa_section_emptied c5Doc [c2SoaRec] c5Template (by rfl) (by decide)

theorem ctFinish_range (n : Int) (e : Bool) :
    900 ≤ (ctFinish n e).1 ∧ (ctFinish n e).1 ≤ 2 ^ 31 - 1 := by
  unfold ctFinish
  have h31 : (2 : Int) ^ 31 = 2147483648 := by norm_num
  split_ifs with h1 h2
  · norm_num
  · norm_num
  · rw [h31] at h2
    constructor <;> omega

/-- Claim C7, amended: every seconds value the time-conversion stage
returns — the value stored for the `$TTL` directive and substituted for the
SOA timer fields — lies in `[900, 2^31 − 1]`; out-of-range or unparseable
literals are replaced by 86400 with the error flag set (while per-record
ttl fields bypass this stage and are stored verbatim, per the
counterexample). -/
theorem c7_convert_in_range (s : PStr) (n : Int) (e : Bool)
    (h : convertVal s = .ok (n, e)) : 900 ≤ n ∧ n ≤ 2 ^ 31 - 1 := by
  obtain ⟨p, _, hne⟩ := except_map_ok _ _ _ h
  have h1 := ctFinish_range p.1 p.2
  have hn : n = (ctFinish p.1 p.2).1 := congrArg Prod.fst hne
  rw [hn]
  exact h1

/-- Claim C7, witness: the range theorem applied at the literal `1H`. -/
theorem c7_convert_in_range_witness :
    convertVal (pstr "1H") = .ok (3600, false) ∧
      (900 ≤ (3600 : Int) ∧ (3600 : Int) ≤ 2 ^ 31 - 1) :=
  ⟨by rfl, c7_convert_in_range (pstr "1H") 3600 false (by rfl)⟩

end ZoneFile
